import Mathlib

/-!
# terraform-provider-scalardb: administrative service, client and table resource

A shallow embedding of `tests/mock/mock_server.go` (the in-memory implementation of the
ScalarDB administrative RPCs), of the request building and schema translation of `client.go`
and of the columns map and resource ID of `resource_scalardb_table.go`, with theorems about
them.

Modelling conventions.

* A Go map with string keys that is only indexed and assigned is the function giving, for
  each key, the value stored under it (`none` when the key is not in the map).  Two maps are
  equal exactly when they hold the same entries, which is the equality the statements about
  "unchanged state" mean.  A map the program ranges over is the list of its entries in the
  order of the visit.
* A handler takes the server state and a request and yields what the Go method produced
  (a response with a nil error, a non-nil error, or a runtime panic) paired with the
  server state after the call.  The `log.Printf` line of each handler is not modelled.
* The two maps of a `mockServer` are allocated maps, as `newMockServer` makes them; no method
  assigns to the struct fields themselves.  A key missing from `tables` reads as the nil map:
  reading from it finds nothing, `delete` on it does nothing, and assigning into it panics.
* The protobuf message types are declared outside the repository sources; the request and
  response structures list the fields the client fills and the service reads, and the
  service is generic in the type `M` of the `TableMetadata` field it stores.
* A client method run against the service calls the handler directly; the gRPC transport,
  the context argument and the `String()` methods of the protobuf enums are parameters.
-/

/-! ## Go maps -/

/-- A Go `map[string]V`: the value stored under each key, `none` for a key not in the map. -/
abbrev GoMap (V : Type) : Type := String → Option V

namespace GoMap

variable {V : Type}

/-- The map `make(map[string]V)` returns. -/
def empty : GoMap V := fun _ => none

/-- The second result of `_, exists := m[k]`. -/
def has (m : GoMap V) (k : String) : Bool := (m k).isSome

/-- The map after `m[k] = v`. -/
def set (m : GoMap V) (k : String) (v : V) : GoMap V :=
  fun j => if j = k then some v else m j

/-- The map after `delete(m, k)`. -/
def delete (m : GoMap V) (k : String) : GoMap V :=
  fun j => if j = k then none else m j

end GoMap

/-! ## Messages -/

/-- The `pb.RequestHeader` the client attaches to every request. -/
structure RequestHeader where
  HopLimit : Int := 0
  AuthToken : Option String := none

/-- The fields of `pb.CreateNamespaceRequest`. -/
structure CreateNamespaceRequest where
  RequestHeader : Option RequestHeader := none
  NamespaceName : String := ""
  Options : GoMap String := GoMap.empty
  IfNotExists : Bool := false

/-- The fields of `pb.DropNamespaceRequest`. -/
structure DropNamespaceRequest where
  RequestHeader : Option RequestHeader := none
  NamespaceName : String := ""
  IfExists : Bool := false

/-- The fields of `pb.NamespaceExistsRequest`. -/
structure NamespaceExistsRequest where
  RequestHeader : Option RequestHeader := none
  NamespaceName : String := ""

/-- The fields of `pb.CreateTableRequest`; `M` is the type of its `TableMetadata` field. -/
structure CreateTableRequest (M : Type) where
  RequestHeader : Option RequestHeader := none
  NamespaceName : String := ""
  TableName : String := ""
  TableMetadata : M
  Options : GoMap String := GoMap.empty
  IfNotExists : Bool := false

/-- The fields of `pb.DropTableRequest`. -/
structure DropTableRequest where
  RequestHeader : Option RequestHeader := none
  NamespaceName : String := ""
  TableName : String := ""
  IfExists : Bool := false

/-- The fields of `pb.TableExistsRequest`. -/
structure TableExistsRequest where
  RequestHeader : Option RequestHeader := none
  NamespaceName : String := ""
  TableName : String := ""

/-- The fields of `pb.GetTableMetadataRequest`. -/
structure GetTableMetadataRequest where
  RequestHeader : Option RequestHeader := none
  NamespaceName : String := ""
  TableName : String := ""

/-- The empty message `pb.CreateNamespaceResponse`. -/
structure CreateNamespaceResponse where
  deriving DecidableEq

/-- The empty message `pb.DropNamespaceResponse`. -/
structure DropNamespaceResponse where
  deriving DecidableEq

/-- The empty message `pb.CreateTableResponse`. -/
structure CreateTableResponse where
  deriving DecidableEq

/-- The empty message `pb.DropTableResponse`. -/
structure DropTableResponse where
  deriving DecidableEq

/-- The message `pb.NamespaceExistsResponse`. -/
structure NamespaceExistsResponse where
  Exists : Bool
  deriving DecidableEq

/-- The message `pb.TableExistsResponse`. -/
structure TableExistsResponse where
  Exists : Bool
  deriving DecidableEq

/-- The message `pb.GetTableMetadataResponse`. -/
structure GetTableMetadataResponse (M : Type) where
  TableMetadata : M
  deriving DecidableEq

/-- What a handler call produced: `(resp, nil)`, `(nil, err)` with the text of the error,
or a runtime panic with its text. -/
inductive Result (R : Type) where
  | ok (resp : R)
  | err (msg : String)
  | panic (msg : String)
  deriving DecidableEq

namespace Result

variable {R : Type}

/-- The call returned a response and a nil error. -/
def isOk : Result R → Bool
  | ok _ => true
  | _ => false

/-- The call returned a non-nil error. -/
def isErr : Result R → Bool
  | err _ => true
  | _ => false

/-- The call did not return: it panicked. -/
def isPanic : Result R → Bool
  | panic _ => true
  | _ => false

end Result

/-! ## The service -/

/-- The state of the mock service: the set of namespaces (keys of `namespaces`) and, per
namespace name, the collection of tables with the metadata stored for each. -/
structure mockServer (M : Type) where
  namespaces : GoMap Bool
  tables : GoMap (GoMap M)

/-- The server `newMockServer()` returns: two empty maps. -/
def newMockServer {M : Type} : mockServer M :=
  { namespaces := GoMap.empty, tables := GoMap.empty }

namespace mockServer

variable {M : Type}

/-- The two results of the read `s.tables[ns][t]`: indexing a missing namespace gives the nil
map, and indexing the nil map finds nothing. -/
def tableAt (s : mockServer M) (ns t : String) : Option M :=
  match s.tables ns with
  | none => none
  | some inner => inner t

/-- Handler `CreateNamespace`. -/
def CreateNamespace (s : mockServer M) (req : CreateNamespaceRequest) :
    Result CreateNamespaceResponse × mockServer M :=
  if s.namespaces.has req.NamespaceName && !req.IfNotExists then
    (.err ("namespace " ++ req.NamespaceName ++ " already exists"), s)
  else
    let s1 : mockServer M := { s with namespaces := s.namespaces.set req.NamespaceName true }
    let s2 : mockServer M :=
      if !s1.tables.has req.NamespaceName then
        { s1 with tables := s1.tables.set req.NamespaceName GoMap.empty }
      else s1
    (.ok {}, s2)

/-- Handler `DropNamespace`. -/
def DropNamespace (s : mockServer M) (req : DropNamespaceRequest) :
    Result DropNamespaceResponse × mockServer M :=
  if !s.namespaces.has req.NamespaceName && !req.IfExists then
    (.err ("namespace " ++ req.NamespaceName ++ " does not exist"), s)
  else
    let s1 : mockServer M := { s with namespaces := s.namespaces.delete req.NamespaceName }
    let s2 : mockServer M := { s1 with tables := s1.tables.delete req.NamespaceName }
    (.ok {}, s2)

/-- Handler `NamespaceExists`. -/
def NamespaceExists (s : mockServer M) (req : NamespaceExistsRequest) :
    Result NamespaceExistsResponse × mockServer M :=
  let found0 := false
  let found1 := if s.namespaces.has req.NamespaceName then true else found0
  (.ok ⟨found1⟩, s)

/-- Handler `CreateTable`.  The final assignment `s.tables[ns][t] = md` writes into the map
stored under `ns`; when `tables` has no entry for `ns` that map is nil and the write panics. -/
def CreateTable (s : mockServer M) (req : CreateTableRequest M) :
    Result CreateTableResponse × mockServer M :=
  if !s.namespaces.has req.NamespaceName then
    (.err ("namespace " ++ req.NamespaceName ++ " does not exist"), s)
  else if (s.tableAt req.NamespaceName req.TableName).isSome && !req.IfNotExists then
    (.err ("table " ++ req.NamespaceName ++ "." ++ req.TableName ++ " already exists"), s)
  else
    match s.tables req.NamespaceName with
    | none => (.panic "assignment to entry in nil map", s)
    | some inner =>
      let inner1 : GoMap M := inner.set req.TableName req.TableMetadata
      (.ok {}, { s with tables := s.tables.set req.NamespaceName inner1 })

/-- Handler `DropTable`.  `delete(s.tables[ns], t)` does nothing on the nil map. -/
def DropTable (s : mockServer M) (req : DropTableRequest) :
    Result DropTableResponse × mockServer M :=
  if !s.namespaces.has req.NamespaceName then
    (.err ("namespace " ++ req.NamespaceName ++ " does not exist"), s)
  else if !(s.tableAt req.NamespaceName req.TableName).isSome && !req.IfExists then
    (.err ("table " ++ req.NamespaceName ++ "." ++ req.TableName ++ " does not exist"), s)
  else
    match s.tables req.NamespaceName with
    | none => (.ok {}, s)
    | some inner =>
      let inner1 : GoMap M := inner.delete req.TableName
      (.ok {}, { s with tables := s.tables.set req.NamespaceName inner1 })

/-- Handler `TableExists`. -/
def TableExists (s : mockServer M) (req : TableExistsRequest) :
    Result TableExistsResponse × mockServer M :=
  let found0 := false
  let found1 :=
    if s.namespaces.has req.NamespaceName then
      if (s.tableAt req.NamespaceName req.TableName).isSome then true else found0
    else found0
  (.ok ⟨found1⟩, s)

/-- Handler `GetTableMetadata`. -/
def GetTableMetadata (s : mockServer M) (req : GetTableMetadataRequest) :
    Result (GetTableMetadataResponse M) × mockServer M :=
  if !s.namespaces.has req.NamespaceName then
    (.err ("namespace " ++ req.NamespaceName ++ " does not exist"), s)
  else
    match s.tableAt req.NamespaceName req.TableName with
    | none =>
      (.err ("table " ++ req.NamespaceName ++ "." ++ req.TableName ++ " does not exist"), s)
    | some md => (.ok ⟨md⟩, s)

end mockServer

/-! ## Runs of the service -/

/-- One call of a client to the service: the handler invoked and its request.  These are the
seven handlers that read or write `namespaces` and `tables` in their decisions; the remaining
handlers of the mock return a fixed response or list names and write nothing. -/
inductive Call (M : Type) where
  | createNamespace (req : CreateNamespaceRequest)
  | dropNamespace (req : DropNamespaceRequest)
  | namespaceExists (req : NamespaceExistsRequest)
  | createTable (req : CreateTableRequest M)
  | dropTable (req : DropTableRequest)
  | tableExists (req : TableExistsRequest)
  | getTableMetadata (req : GetTableMetadataRequest)

namespace mockServer

variable {M : Type}

/-- The state in which the service goes on after a handler call, `none` when the handler
panicked (a panic in a handler ends the serving process). -/
def continueWith {R : Type} (out : Result R × mockServer M) : Option (mockServer M) :=
  match out.1 with
  | .panic _ => none
  | _ => some out.2

/-- The service handles one call. -/
def serve (s : mockServer M) : Call M → Option (mockServer M)
  | .createNamespace req => continueWith (s.CreateNamespace req)
  | .dropNamespace req => continueWith (s.DropNamespace req)
  | .namespaceExists req => continueWith (s.NamespaceExists req)
  | .createTable req => continueWith (s.CreateTable req)
  | .dropTable req => continueWith (s.DropTable req)
  | .tableExists req => continueWith (s.TableExists req)
  | .getTableMetadata req => continueWith (s.GetTableMetadata req)

/-- The service handles a sequence of calls, one after the other. -/
def serveAll (s : mockServer M) : List (Call M) → Option (mockServer M)
  | [] => some s
  | c :: cs =>
    match s.serve c with
    | none => none
    | some s1 => s1.serveAll cs

/-- A state the service started by `newMockServer()` is in after some sequence of calls. -/
def Reachable (s : mockServer M) : Prop :=
  ∃ calls : List (Call M), (newMockServer : mockServer M).serveAll calls = some s

/-- The namespace/table consistency of a state: `tables` has a collection for a name exactly
when `namespaces` has that name. -/
def Consistent (s : mockServer M) : Prop :=
  ∀ n : String, s.tables.has n = s.namespaces.has n

end mockServer

/-! ## Table metadata, as the client builds it -/

/-- The values of `pb.DataType` that `convertDataType` produces. -/
inductive DataType where
  | DATA_TYPE_BOOLEAN
  | DATA_TYPE_INT
  | DATA_TYPE_BIGINT
  | DATA_TYPE_FLOAT
  | DATA_TYPE_DOUBLE
  | DATA_TYPE_TEXT
  | DATA_TYPE_BLOB
  | DATA_TYPE_DATE
  | DATA_TYPE_TIME
  | DATA_TYPE_TIMESTAMP
  | DATA_TYPE_TIMESTAMPTZ
  deriving DecidableEq, Repr

/-- The values of `pb.ClusteringOrder` that `convertClusteringOrder` produces. -/
inductive ClusteringOrder where
  | CLUSTERING_ORDER_ASC
  | CLUSTERING_ORDER_DESC
  deriving DecidableEq, Repr

/-- The fields of `pb.TableMetadata` that `Client.CreateTable` fills; the two map fields are
given by their entries. -/
structure TableMetadata where
  Columns : List (String × DataType)
  PartitionKeyColumnNames : List String
  ClusteringKeyColumnNames : List String
  ClusteringOrders : List (String × ClusteringOrder)
  SecondaryIndexColumnNames : List String
  EncryptedColumns : List String
  deriving DecidableEq, Repr

/-- A metadata value with one `INT` partition-key column `id`. -/
def sampleMetadataA : TableMetadata :=
  ⟨[("id", .DATA_TYPE_INT)], ["id"], [], [], [], []⟩

/-- A metadata value with one `TEXT` partition-key column `name`. -/
def sampleMetadataB : TableMetadata :=
  ⟨[("name", .DATA_TYPE_TEXT)], ["name"], [], [], [], []⟩

/-- The server after `CreateNamespace` of `ns1` on the fresh server.  The stored value is the
`*pb.TableMetadata` pointer of the request, `none` being the nil pointer. -/
def serverWithNamespace : mockServer (Option TableMetadata) :=
  (newMockServer.CreateNamespace { NamespaceName := "ns1" }).2

/-- The server after, in addition, `CreateTable` of `ns1.t1` with `sampleMetadataA`. -/
def serverWithTable : mockServer (Option TableMetadata) :=
  (serverWithNamespace.CreateTable
    { NamespaceName := "ns1", TableName := "t1", TableMetadata := some sampleMetadataA }).2

/-! ## Dynamic values and iterated maps

The client receives its configuration as `map[string]interface{}` values.  A map the program
ranges over is given by the list of its entries, in the order the `range` statement visits
them; the order is chosen by the Go runtime, so statements that hold for a map hold for
every such list with pairwise distinct keys.  A map that is only indexed and assigned is a
`GoMap`. -/

/-- A Go `interface{}` value, by its dynamic type: `string`, `int`, `bool`,
`map[string]interface{}` (its entries), or any other type, for which the only thing the
program does is print it with `%v`: the payload is that rendering. -/
inductive GoValue where
  | str (s : String)
  | int (n : Int)
  | bool (b : Bool)
  | map (entries : List (String × GoValue))
  | other (rendering : String)

namespace GoValue

/-- The two results of `v.(string)` on the result of a map index (`none`: no such key, the
nil interface), as an option. -/
def asString : Option GoValue → Option String
  | some (str s) => some s
  | _ => none

/-- The two results of `v.(bool)`. -/
def asBool : Option GoValue → Option Bool
  | some (bool b) => some b
  | _ => none

/-- The two results of `v.(map[string]interface{})`. -/
def asMap : Option GoValue → Option (List (String × GoValue))
  | some (map entries) => some entries
  | _ => none

end GoValue

namespace Entries

variable {V : Type}

/-- The value `m[k]` of a map given by its entries. -/
def get : List (String × V) → String → Option V
  | [], _ => none
  | (k, v) :: rest, j => if j = k then some v else get rest j

/-- The entries after `m[k] = v`: the value is replaced when the key is there, and a new
entry is added otherwise. -/
def set : List (String × V) → String → V → List (String × V)
  | [], k, v => [(k, v)]
  | (k0, v0) :: rest, k, v => if k0 = k then (k, v) :: rest else (k0, v0) :: set rest k v

/-- The keys of the entries. -/
def keys (m : List (String × V)) : List String := m.map Prod.fst

end Entries

/-! ## Standard-library renderings -/

/-- The result of `strconv.Itoa`: the decimal rendering of an integer. -/
def Itoa (n : Int) : String := toString n

/-- The result of `strconv.FormatBool`. -/
def FormatBool (b : Bool) : String := if b then "true" else "false"

/-- The result of `fmt.Sprintf("%v", v)`.  Strings print as themselves, integers in decimal,
booleans as `true`/`false`; `renderMap` is the rendering of a map value. -/
def Sprintv (renderMap : List (String × GoValue) → String) : GoValue → String
  | .str s => s
  | .int n => toString n
  | .bool b => if b then "true" else "false"
  | .map entries => renderMap entries
  | .other rendering => rendering

/-! ## The enum converters of the client -/

/-- Function `convertDataType`. -/
def convertDataType (dataType : String) : DataType :=
  if dataType = "BOOLEAN" then .DATA_TYPE_BOOLEAN
  else if dataType = "INT" then .DATA_TYPE_INT
  else if dataType = "BIGINT" then .DATA_TYPE_BIGINT
  else if dataType = "FLOAT" then .DATA_TYPE_FLOAT
  else if dataType = "DOUBLE" then .DATA_TYPE_DOUBLE
  else if dataType = "TEXT" then .DATA_TYPE_TEXT
  else if dataType = "BLOB" then .DATA_TYPE_BLOB
  else if dataType = "DATE" then .DATA_TYPE_DATE
  else if dataType = "TIME" then .DATA_TYPE_TIME
  else if dataType = "TIMESTAMP" then .DATA_TYPE_TIMESTAMP
  else if dataType = "TIMESTAMPTZ" then .DATA_TYPE_TIMESTAMPTZ
  else .DATA_TYPE_TEXT

/-- Function `convertClusteringOrder`. -/
def convertClusteringOrder (order : String) : ClusteringOrder :=
  if order = "ASC" then .CLUSTERING_ORDER_ASC
  else if order = "DESC" then .CLUSTERING_ORDER_DESC
  else .CLUSTERING_ORDER_ASC

/-! ## The options encodings of the client -/

/-- One iteration of the options loop of `Client.CreateNamespace`: the type switch on the
value of key `k`. -/
def namespaceOptionStep (renderMap : List (String × GoValue) → String)
    (strOptions : GoMap String) (k : String) (v : GoValue) : GoMap String :=
  match v with
  | .str val => strOptions.set k val
  | .int val => strOptions.set k (Itoa val)
  | .bool val => strOptions.set k (FormatBool val)
  | val => strOptions.set k (Sprintv renderMap val)

/-- The `strOptions` map `Client.CreateNamespace` builds from `options`. -/
def namespaceStrOptions (renderMap : List (String × GoValue) → String)
    (options : List (String × GoValue)) : GoMap String :=
  options.foldl (fun strOptions kv => namespaceOptionStep renderMap strOptions kv.1 kv.2)
    GoMap.empty

/-- The inner loop of the `map[string]interface{}` case of `Client.CreateTable`, run for
the key `clustering_order`: one dotted key per entry of the nested map. -/
def flattenClusteringOrder (renderMap : List (String × GoValue) → String)
    (strOptions : GoMap String) (val : List (String × GoValue)) : GoMap String :=
  val.foldl (fun acc ckcv => acc.set ("clustering_order." ++ ckcv.1)
    (Sprintv renderMap ckcv.2)) strOptions

/-- One iteration of the options loop of `Client.CreateTable`: the type switch on the value
of key `k`.  The map case writes only for the key `clustering_order`. -/
def tableOptionStep (renderMap : List (String × GoValue) → String)
    (strOptions : GoMap String) (k : String) (v : GoValue) : GoMap String :=
  match v with
  | .str val => strOptions.set k val
  | .int val => strOptions.set k (Itoa val)
  | .bool val => strOptions.set k (FormatBool val)
  | .map val =>
    if k = "clustering_order" then flattenClusteringOrder renderMap strOptions val
    else strOptions
  | val => strOptions.set k (Sprintv renderMap val)

/-- The `strOptions` map `Client.CreateTable` builds from `options`. -/
def tableStrOptions (renderMap : List (String × GoValue) → String)
    (options : List (String × GoValue)) : GoMap String :=
  options.foldl (fun strOptions kv => tableOptionStep renderMap strOptions kv.1 kv.2)
    GoMap.empty

/-! ## The schema translation of the client -/

/-- The metadata `Client.CreateTable` starts from: empty maps and empty slices. -/
def emptyTableMetadata : TableMetadata :=
  ⟨[], [], [], [], [], []⟩

/-- Column loop of `Client.CreateTable`, first statement: the column gets an entry in
`Columns` when its `type` property is a string. -/
def addColumnType (md : TableMetadata) (colName : String) (colProps : GoMap GoValue) :
    TableMetadata :=
  match GoValue.asString (colProps "type") with
  | some dataTypeStr =>
    { md with Columns := Entries.set md.Columns colName (convertDataType dataTypeStr) }
  | none => md

/-- The condition `ok && isSet` of the four flag statements of the column loop, where
`isSet, ok := colProps[flag].(bool)`. -/
def flagSet (colProps : GoMap GoValue) (flag : String) : Bool :=
  match GoValue.asBool (colProps flag) with
  | some isSet => isSet
  | none => false

/-- Column loop, second statement: the name is appended to the partition key when the
`partition_key` property is the boolean true. -/
def addPartitionKey (md : TableMetadata) (colName : String) (colProps : GoMap GoValue) :
    TableMetadata :=
  if flagSet colProps "partition_key" then
    { md with PartitionKeyColumnNames := md.PartitionKeyColumnNames ++ [colName] }
  else md

/-- Column loop, third statement, for `clustering_key`. -/
def addClusteringKey (md : TableMetadata) (colName : String) (colProps : GoMap GoValue) :
    TableMetadata :=
  if flagSet colProps "clustering_key" then
    { md with ClusteringKeyColumnNames := md.ClusteringKeyColumnNames ++ [colName] }
  else md

/-- Column loop, fourth statement, for `secondary_index`. -/
def addSecondaryIndex (md : TableMetadata) (colName : String) (colProps : GoMap GoValue) :
    TableMetadata :=
  if flagSet colProps "secondary_index" then
    { md with SecondaryIndexColumnNames := md.SecondaryIndexColumnNames ++ [colName] }
  else md

/-- Column loop, fifth statement, for `encrypted`. -/
def addEncrypted (md : TableMetadata) (colName : String) (colProps : GoMap GoValue) :
    TableMetadata :=
  if flagSet colProps "encrypted" then
    { md with EncryptedColumns := md.EncryptedColumns ++ [colName] }
  else md

/-- The body of the column loop of `Client.CreateTable`, for one column. -/
def processColumn (md : TableMetadata) (colName : String) (colProps : GoMap GoValue) :
    TableMetadata :=
  addEncrypted (addSecondaryIndex (addClusteringKey (addPartitionKey
    (addColumnType md colName colProps) colName colProps) colName colProps)
    colName colProps) colName colProps

/-- The column loop of `Client.CreateTable` over the columns map. -/
def processColumns (md : TableMetadata) (columns : List (String × GoMap GoValue)) :
    TableMetadata :=
  columns.foldl (fun acc col => processColumn acc col.1 col.2) md

/-- The names the column loop collects for a flag: the visited columns that set it, in the
order of the visit. -/
def flagged (flag : String) (columns : List (String × GoMap GoValue)) : List String :=
  (columns.filter (fun col => flagSet col.2 flag)).map Prod.fst

/-- The clustering-order block of `Client.CreateTable`: when the `clustering_order` option
is a map, each entry whose value is a string is converted and stored. -/
def addClusteringOrders (md : TableMetadata) (options : List (String × GoValue)) :
    TableMetadata :=
  match GoValue.asMap (Entries.get options "clustering_order") with
  | some clusteringOrderMap =>
    clusteringOrderMap.foldl (fun acc entry =>
      match GoValue.asString (some entry.2) with
      | some orderStr =>
        { acc with ClusteringOrders :=
            Entries.set acc.ClusteringOrders entry.1 (convertClusteringOrder orderStr) }
      | none => acc) md
  | none => md

/-- The table metadata `Client.CreateTable` builds from its `columns` and `options`
arguments. -/
def buildTableMetadata (columns : List (String × GoMap GoValue))
    (options : List (String × GoValue)) : TableMetadata :=
  addClusteringOrders (processColumns emptyTableMetadata columns) options

/-- A membership loop of `Client.GetTableSchema`: run over `names`, it reaches the
assignment (and the `break`) exactly when some element equals `colName`. -/
def nameListed (names : List String) (colName : String) : Bool :=
  names.any (fun listed => decide (listed = colName))

/-- The `colProps` map `Client.GetTableSchema` builds for one column of the metadata;
`typeName` is the `String()` method of `pb.DataType`. -/
def schemaColProps (typeName : DataType → String) (md : TableMetadata) (colName : String)
    (dataType : DataType) : GoMap GoValue :=
  let p0 : GoMap GoValue := (GoMap.empty : GoMap GoValue).set "type" (.str (typeName dataType))
  let p1 := if nameListed md.PartitionKeyColumnNames colName then
    p0.set "partition_key" (.bool true) else p0
  let p2 := if nameListed md.ClusteringKeyColumnNames colName then
    p1.set "clustering_key" (.bool true) else p1
  let p3 := if nameListed md.SecondaryIndexColumnNames colName then
    p2.set "secondary_index" (.bool true) else p2
  let p4 := if nameListed md.EncryptedColumns colName then
    p3.set "encrypted" (.bool true) else p3
  p4

/-- The `columns` result of `Client.GetTableSchema` for the metadata the service returned:
one properties map per entry of `Columns`. -/
def schemaColumns (typeName : DataType → String) (md : TableMetadata) :
    GoMap (GoMap GoValue) :=
  md.Columns.foldl (fun columns col =>
    columns.set col.1 (schemaColProps typeName md col.1 col.2)) GoMap.empty

/-- The `options` result of `Client.GetTableSchema`; `orderName` is the `String()` method of
`pb.ClusteringOrder`. -/
def schemaOptions (orderName : ClusteringOrder → String) (md : TableMetadata) :
    GoMap GoValue :=
  if md.ClusteringOrders.length > 0 then
    (GoMap.empty : GoMap GoValue).set "clustering_order"
      (.map (md.ClusteringOrders.map (fun e => (e.1, GoValue.str (orderName e.2)))))
  else GoMap.empty

/-- The keys of `strOptions` that the iteration of the `Client.CreateTable` options loop for
the entry `(k, v)` assigns: the dotted keys of a `clustering_order` map, nothing for a map
under another key, and `k` itself for a value of any other type. -/
def tableOptionWrites (k : String) (v : GoValue) (j : String) : Prop :=
  match v with
  | .map val => k = "clustering_order" ∧ ∃ c ∈ Entries.keys val, j = "clustering_order." ++ c
  | _ => j = k

/-! ## The client

The gRPC transport is outside the repository.  A call of the generated stub is modelled as
the call of the service handler on the request, and what the transport contributes is a
parameter: whether `grpc.Dial` fails, and the text of the error the stub returns. -/

/-- What the transport contributes to a client call: the error `grpc.Dial` returns (`none`
when it returns a connection), the text of the error the stub returns for a handler error
with a given text, and the text of the error it returns when the handler panicked. -/
structure Transport where
  dialErr : Option String
  statusText : String → String
  crashText : String

/-- The struct `Client`; `admin` tells whether the field `admin` (set together with `conn`)
is non-nil. -/
structure Client where
  Host : String
  Port : Int
  Username : String
  Password : String
  admin : Bool

/-- Function `NewClient`: an unconnected client. -/
def NewClient (host : String) (port : Int) (username password : String) : Client :=
  ⟨host, port, username, password, false⟩

/-- What a client method did: the error it returned (`none` for nil), the client afterwards,
the request it sent to the service (`none` when it returned before the call), and the state
in which the service goes on (`none` when the handler panicked). -/
structure ClientRun (Req : Type) where
  err : Option String
  client : Client
  sent : Option Req
  server : Option (mockServer (Option TableMetadata))

/-- The error of a stub call, as the client method returns it: nil for a response,
otherwise the transport's error text wrapped with the prefix `what`. -/
def stubError {R : Type} (t : Transport) (what : String) : Result R → Option String
  | .ok _ => none
  | .err msg => some (what ++ ": " ++ t.statusText msg)
  | .panic _ => some (what ++ ": " ++ t.crashText)

namespace Client

/-- Method `Connect`. -/
def Connect (c : Client) (t : Transport) : Option String × Client :=
  match t.dialErr with
  | some err => (some ("failed to connect to ScalarDB server: " ++ err), c)
  | none => (none, { c with admin := true })

/-- The guard opening every client method: connect when `c.admin` is nil. -/
def ensureConnected (c : Client) (t : Transport) : Option String × Client :=
  if c.admin then (none, c) else c.Connect t

/-- Method `getRequestHeader`. -/
def getRequestHeader (c : Client) : RequestHeader :=
  { HopLimit := 10,
    AuthToken := if c.Username ≠ "" ∧ c.Password ≠ "" then some c.Username else none }

/-- The request `Client.CreateNamespace` builds. -/
def createNamespaceRequest (c : Client) (renderMap : List (String × GoValue) → String)
    (name : String) (options : List (String × GoValue)) : CreateNamespaceRequest :=
  { RequestHeader := some c.getRequestHeader,
    NamespaceName := name,
    Options := namespaceStrOptions renderMap options,
    IfNotExists := true }

/-- The request `Client.DeleteNamespace` builds. -/
def deleteNamespaceRequest (c : Client) (name : String) : DropNamespaceRequest :=
  { RequestHeader := some c.getRequestHeader, NamespaceName := name, IfExists := true }

/-- The request `Client.CreateTable` builds. -/
def createTableRequest (c : Client) (renderMap : List (String × GoValue) → String)
    (namespaceName name : String) (columns : List (String × GoMap GoValue))
    (options : List (String × GoValue)) : CreateTableRequest (Option TableMetadata) :=
  { RequestHeader := some c.getRequestHeader,
    NamespaceName := namespaceName,
    TableName := name,
    TableMetadata := some (buildTableMetadata columns options),
    Options := tableStrOptions renderMap options,
    IfNotExists := true }

/-- The request `Client.DeleteTable` builds. -/
def deleteTableRequest (c : Client) (namespaceName name : String) : DropTableRequest :=
  { RequestHeader := some c.getRequestHeader,
    NamespaceName := namespaceName,
    TableName := name,
    IfExists := true }

/-- Method `CreateNamespace`, run against the service in state `srv`. -/
def CreateNamespace (c : Client) (t : Transport) (renderMap : List (String × GoValue) → String)
    (srv : mockServer (Option TableMetadata)) (name : String)
    (options : List (String × GoValue)) : ClientRun CreateNamespaceRequest :=
  match c.ensureConnected t with
  | (some err, c1) => ⟨some err, c1, none, some srv⟩
  | (none, c1) =>
    let req := c1.createNamespaceRequest renderMap name options
    let out := srv.CreateNamespace req
    ⟨stubError t "failed to create namespace" out.1, c1, some req,
      mockServer.continueWith out⟩

/-- Method `DeleteNamespace`, run against the service in state `srv`. -/
def DeleteNamespace (c : Client) (t : Transport) (srv : mockServer (Option TableMetadata))
    (name : String) : ClientRun DropNamespaceRequest :=
  match c.ensureConnected t with
  | (some err, c1) => ⟨some err, c1, none, some srv⟩
  | (none, c1) =>
    let req := c1.deleteNamespaceRequest name
    let out := srv.DropNamespace req
    ⟨stubError t "failed to delete namespace" out.1, c1, some req,
      mockServer.continueWith out⟩

/-- Method `CreateTable`, run against the service in state `srv`. -/
def CreateTable (c : Client) (t : Transport) (renderMap : List (String × GoValue) → String)
    (srv : mockServer (Option TableMetadata)) (namespaceName name : String)
    (columns : List (String × GoMap GoValue)) (options : List (String × GoValue)) :
    ClientRun (CreateTableRequest (Option TableMetadata)) :=
  match c.ensureConnected t with
  | (some err, c1) => ⟨some err, c1, none, some srv⟩
  | (none, c1) =>
    let req := c1.createTableRequest renderMap namespaceName name columns options
    let out := srv.CreateTable req
    ⟨stubError t "failed to create table" out.1, c1, some req, mockServer.continueWith out⟩

/-- Method `DeleteTable`, run against the service in state `srv`. -/
def DeleteTable (c : Client) (t : Transport) (srv : mockServer (Option TableMetadata))
    (namespaceName name : String) : ClientRun DropTableRequest :=
  match c.ensureConnected t with
  | (some err, c1) => ⟨some err, c1, none, some srv⟩
  | (none, c1) =>
    let req := c1.deleteTableRequest namespaceName name
    let out := srv.DropTable req
    ⟨stubError t "failed to delete table" out.1, c1, some req, mockServer.continueWith out⟩

end Client

/-! ## The table resource -/

/-- The attributes of a `scalardb_table` resource that `resourceScalarDBTableCreate` reads:
`column` lists the name and type of each element of the set, in the order of `Set.List()`;
`clustering_order` is the result of `GetOk` (`none` when it is not set). -/
structure TableResourceData where
  namespaceName : String
  name : String
  partition_key : List String
  clustering_key : List String
  column : List (String × String)
  compaction_strategy : String
  clustering_order : Option (List (String × GoValue))

/-- The body of the two key loops of `resourceScalarDBTableCreate`: the column named `key`,
when the columns map has it, gets the property `prop` set to true. -/
def markKeyColumn (prop : String) (columns : List (String × GoMap GoValue)) (key : String) :
    List (String × GoMap GoValue) :=
  match Entries.get columns key with
  | some col => Entries.set columns key (col.set prop (.bool true))
  | none => columns

/-- The columns map `resourceScalarDBTableCreate` builds (lines 101 to 128). -/
def tableResourceColumns (d : TableResourceData) : List (String × GoMap GoValue) :=
  let columns0 : List (String × GoMap GoValue) :=
    d.column.foldl (fun columns c =>
      Entries.set columns c.1 ((GoMap.empty : GoMap GoValue).set "type" (.str c.2))) []
  let columns1 := d.partition_key.foldl (markKeyColumn "partition_key") columns0
  d.clustering_key.foldl (markKeyColumn "clustering_key") columns1

/-- The options map `resourceScalarDBTableCreate` builds (lines 130 to 136). -/
def tableResourceOptions (d : TableResourceData) : List (String × GoValue) :=
  match d.clustering_order with
  | some clusteringOrder =>
    [("compaction_strategy", .str d.compaction_strategy),
     ("clustering_order", .map clusteringOrder)]
  | none => [("compaction_strategy", .str d.compaction_strategy)]

/-- Function `resourceScalarDBTableCreate` up to and including its call of
`client.CreateTable` (lines 95 to 138).  `visit` is the order
in which the client's `range` over the columns map visits its entries: a rearrangement of
the entries that the Go runtime chooses. -/
def resourceScalarDBTableCreate (c : Client) (t : Transport)
    (renderMap : List (String × GoValue) → String)
    (visit : List (String × GoMap GoValue) → List (String × GoMap GoValue))
    (srv : mockServer (Option TableMetadata)) (d : TableResourceData) :
    ClientRun (CreateTableRequest (Option TableMetadata)) :=
  c.CreateTable t renderMap srv d.namespaceName d.name (visit (tableResourceColumns d))
    (tableResourceOptions d)

/-- The resource ID `resourceScalarDBTableCreate` sets after a successful create:
`fmt.Sprintf("%s.%s", namespace, name)`. -/
def tableResourceId (namespaceName name : String) : String :=
  namespaceName ++ "." ++ name

/-- Splitting a sequence of characters at every occurrence of `sep`: the pieces between
the occurrences, one more than there are occurrences. -/
def splitChars (sep : Char) : List Char → List (List Char)
  | [] => [[]]
  | c :: cs =>
    if c = sep then [] :: splitChars sep cs
    else
      match splitChars sep cs with
      | [] => [[c]]
      | piece :: pieces => (c :: piece) :: pieces

/-- The result of `strings.Split(s, ".")`. -/
def stringsSplitDot (s : String) : List String :=
  (splitChars '.' s.data).map String.mk

/-- The ID parsing that opens `resourceScalarDBTableRead` and `resourceScalarDBTableDelete`:
the namespace and the table name, or the text of the error diagnostic. -/
def parseTableResourceId (id : String) : Except String (String × String) :=
  match stringsSplitDot id with
  | [namespaceName, name] => .ok (namespaceName, name)
  | _ => .error ("Invalid ID format: " ++ id ++ " (expected namespace.table)")

/-- The builder of column properties from a list of entries, for examples. -/
def propsOf (entries : List (String × GoValue)) : GoMap GoValue :=
  fun k => Entries.get entries k

/-- A transport that connects and reports handler errors verbatim, for examples. -/
def sampleTransport : Transport :=
  ⟨none, fun msg => msg, "connection closed"⟩

/-- A rendering of map values, for examples. -/
def sampleRenderMap (entries : List (String × GoValue)) : String :=
  "map[" ++ " ".intercalate (entries.map (fun e => e.1)) ++ "]"

/-- A table configuration with two `INT` columns `a` and `b` and the partition key
`b`, `a`, in that order. -/
def sampleTableConfig : TableResourceData :=
  ⟨"ns1", "t9", ["b", "a"], [], [("a", "INT"), ("b", "INT")],
    "SizeTieredCompactionStrategy", none⟩

/-- A connected client without credentials, for examples. -/
def sampleClient : Client :=
  ⟨"localhost", 60051, "", "", true⟩

/-- A columns map with one column `id` that sets `partition_key` and declares no `type`. -/
def typelessColumns : List (String × GoMap GoValue) :=
  [("id", propsOf [("partition_key", .bool true)])]

/-- A columns map with one `INT` column `id` and no key flag. -/
def keylessColumns : List (String × GoMap GoValue) :=
  [("id", propsOf [("type", .str "INT")])]

/-- An options map with a nested map under the key `extra`. -/
def nestedOptions : List (String × GoValue) :=
  [("extra", .map [("a", .str "b")])]

/-- An options map with a string, an integer and a boolean option and a clustering order
for the columns `c1` and `c2`. -/
def sampleOptions : List (String × GoValue) :=
  [("compaction_strategy", .str "LCS"), ("ttl", .int 30), ("durable", .bool false),
   ("clustering_order", .map [("c1", .str "DESC"), ("c2", .str "ASC")])]

/-! ## Basic facts about the map operations and the table lookup -/

section Basics

variable {V M : Type}

theorem GoMap.set_get_self (m : GoMap V) (k : String) (v : V) : m.set k v k = some v := by
  simp [GoMap.set]

theorem GoMap.set_get_other (m : GoMap V) (k j : String) (v : V) (h : j ≠ k) :
    m.set k v j = m j := by
  simp [GoMap.set, h]

theorem GoMap.delete_get_self (m : GoMap V) (k : String) : m.delete k k = none := by
  simp [GoMap.delete]

theorem GoMap.delete_get_other (m : GoMap V) (k j : String) (h : j ≠ k) :
    m.delete k j = m j := by
  simp [GoMap.delete, h]

/-- Writing under a key the value the map already holds there changes nothing. -/
theorem GoMap.set_same (m : GoMap V) (k : String) (v : V) (h : m k = some v) :
    m.set k v = m := by
  funext j
  by_cases hj : j = k
  · subst hj; simp [GoMap.set, h]
  · simp [GoMap.set, hj]

theorem mockServer.ext_maps (s u : mockServer M) (h1 : s.namespaces = u.namespaces)
    (h2 : s.tables = u.tables) : s = u := by
  cases s; cases u; simp_all

theorem mockServer.tableAt_of_absent (s : mockServer M) (ns t : String)
    (h : s.tables ns = none) : s.tableAt ns t = none := by
  simp [mockServer.tableAt, h]

theorem mockServer.tableAt_of_present (s : mockServer M) (ns t : String) (inner : GoMap M)
    (h : s.tables ns = some inner) : s.tableAt ns t = inner t := by
  simp [mockServer.tableAt, h]

end Basics

/-! ## The handlers, case by case -/

section Handlers

variable {M : Type}

theorem mockServer.CreateNamespace_reject (s : mockServer M) (req : CreateNamespaceRequest)
    (h1 : s.namespaces.has req.NamespaceName = true) (h2 : req.IfNotExists = false) :
    s.CreateNamespace req =
      (.err ("namespace " ++ req.NamespaceName ++ " already exists"), s) := by
  simp [mockServer.CreateNamespace, h1, h2]

theorem mockServer.CreateNamespace_accept (s : mockServer M) (req : CreateNamespaceRequest)
    (h : ¬ (s.namespaces.has req.NamespaceName = true ∧ req.IfNotExists = false)) :
    (s.CreateNamespace req).1 = .ok {} ∧
    (s.CreateNamespace req).2.namespaces = s.namespaces.set req.NamespaceName true ∧
    (s.CreateNamespace req).2.tables =
      (match s.tables req.NamespaceName with
       | none => s.tables.set req.NamespaceName GoMap.empty
       | some _ => s.tables) := by
  have hc : (s.namespaces.has req.NamespaceName && !req.IfNotExists) = false := by
    cases h1 : s.namespaces.has req.NamespaceName <;> cases h2 : req.IfNotExists <;> simp_all
  simp only [mockServer.CreateNamespace, hc, Bool.false_eq_true, ↓reduceIte]
  cases ht : s.tables req.NamespaceName <;> simp [GoMap.has, ht]

theorem mockServer.DropNamespace_reject (s : mockServer M) (req : DropNamespaceRequest)
    (h1 : s.namespaces.has req.NamespaceName = false) (h2 : req.IfExists = false) :
    s.DropNamespace req =
      (.err ("namespace " ++ req.NamespaceName ++ " does not exist"), s) := by
  simp [mockServer.DropNamespace, h1, h2]

theorem mockServer.DropNamespace_accept (s : mockServer M) (req : DropNamespaceRequest)
    (h : ¬ (s.namespaces.has req.NamespaceName = false ∧ req.IfExists = false)) :
    s.DropNamespace req =
      (.ok {}, ⟨s.namespaces.delete req.NamespaceName, s.tables.delete req.NamespaceName⟩) := by
  have hc : (!s.namespaces.has req.NamespaceName && !req.IfExists) = false := by
    cases h1 : s.namespaces.has req.NamespaceName <;> cases h2 : req.IfExists <;> simp_all
  simp [mockServer.DropNamespace, hc]

theorem mockServer.CreateTable_no_namespace (s : mockServer M) (req : CreateTableRequest M)
    (h : s.namespaces.has req.NamespaceName = false) :
    s.CreateTable req =
      (.err ("namespace " ++ req.NamespaceName ++ " does not exist"), s) := by
  simp [mockServer.CreateTable, h]

theorem mockServer.CreateTable_reject (s : mockServer M) (req : CreateTableRequest M)
    (h0 : s.namespaces.has req.NamespaceName = true)
    (h1 : (s.tableAt req.NamespaceName req.TableName).isSome = true)
    (h2 : req.IfNotExists = false) :
    s.CreateTable req =
      (.err ("table " ++ req.NamespaceName ++ "." ++ req.TableName ++ " already exists"),
        s) := by
  simp [mockServer.CreateTable, h0, h1, h2]

theorem mockServer.CreateTable_nil_collection (s : mockServer M) (req : CreateTableRequest M)
    (h0 : s.namespaces.has req.NamespaceName = true)
    (h1 : s.tables req.NamespaceName = none) :
    s.CreateTable req = (.panic "assignment to entry in nil map", s) := by
  simp [mockServer.CreateTable, h0, h1, mockServer.tableAt]

theorem mockServer.CreateTable_accept (s : mockServer M) (req : CreateTableRequest M)
    (inner : GoMap M)
    (h0 : s.namespaces.has req.NamespaceName = true)
    (h1 : s.tables req.NamespaceName = some inner)
    (h2 : ¬ ((inner req.TableName).isSome = true ∧ req.IfNotExists = false)) :
    s.CreateTable req =
      (.ok {}, ⟨s.namespaces,
        s.tables.set req.NamespaceName (inner.set req.TableName req.TableMetadata)⟩) := by
  have hc : ((inner req.TableName).isSome && !req.IfNotExists) = false := by
    cases h3 : (inner req.TableName).isSome <;> cases h4 : req.IfNotExists <;> simp_all
  simp [mockServer.CreateTable, h0, h1, mockServer.tableAt, hc]

theorem mockServer.DropTable_no_namespace (s : mockServer M) (req : DropTableRequest)
    (h : s.namespaces.has req.NamespaceName = false) :
    s.DropTable req =
      (.err ("namespace " ++ req.NamespaceName ++ " does not exist"), s) := by
  simp [mockServer.DropTable, h]

theorem mockServer.DropTable_reject (s : mockServer M) (req : DropTableRequest)
    (h0 : s.namespaces.has req.NamespaceName = true)
    (h1 : (s.tableAt req.NamespaceName req.TableName).isSome = false)
    (h2 : req.IfExists = false) :
    s.DropTable req =
      (.err ("table " ++ req.NamespaceName ++ "." ++ req.TableName ++ " does not exist"),
        s) := by
  simp [mockServer.DropTable, h0, h1, h2]

theorem mockServer.DropTable_accept (s : mockServer M) (req : DropTableRequest)
    (h0 : s.namespaces.has req.NamespaceName = true)
    (h2 : ¬ ((s.tableAt req.NamespaceName req.TableName).isSome = false ∧
      req.IfExists = false)) :
    s.DropTable req =
      (.ok {}, ⟨s.namespaces,
        match s.tables req.NamespaceName with
        | none => s.tables
        | some inner => s.tables.set req.NamespaceName (inner.delete req.TableName)⟩) := by
  have hc : (!(s.tableAt req.NamespaceName req.TableName).isSome && !req.IfExists) = false := by
    cases h3 : (s.tableAt req.NamespaceName req.TableName).isSome <;>
      cases h4 : req.IfExists <;> simp_all
  simp only [mockServer.DropTable, h0, hc, Bool.not_true, Bool.false_eq_true, ↓reduceIte]
  cases ht : s.tables req.NamespaceName <;> simp

theorem mockServer.NamespaceExists_eq (s : mockServer M) (req : NamespaceExistsRequest) :
    s.NamespaceExists req = (.ok ⟨s.namespaces.has req.NamespaceName⟩, s) := by
  cases h : s.namespaces.has req.NamespaceName <;> simp [mockServer.NamespaceExists, h]

theorem mockServer.TableExists_eq (s : mockServer M) (req : TableExistsRequest) :
    s.TableExists req =
      (.ok ⟨s.namespaces.has req.NamespaceName &&
        (s.tableAt req.NamespaceName req.TableName).isSome⟩, s) := by
  cases h : s.namespaces.has req.NamespaceName <;>
    cases h1 : (s.tableAt req.NamespaceName req.TableName).isSome <;>
    simp [mockServer.TableExists, h, h1]

theorem mockServer.GetTableMetadata_no_namespace (s : mockServer M)
    (req : GetTableMetadataRequest) (h : s.namespaces.has req.NamespaceName = false) :
    s.GetTableMetadata req =
      (.err ("namespace " ++ req.NamespaceName ++ " does not exist"), s) := by
  simp [mockServer.GetTableMetadata, h]

theorem mockServer.GetTableMetadata_found (s : mockServer M) (req : GetTableMetadataRequest)
    (md : M) (h0 : s.namespaces.has req.NamespaceName = true)
    (h1 : s.tableAt req.NamespaceName req.TableName = some md) :
    s.GetTableMetadata req = (.ok ⟨md⟩, s) := by
  simp [mockServer.GetTableMetadata, h0, h1]

end Handlers

/-! ## Results of handler calls -/

section Outcomes

variable {M R : Type}

theorem Result.isErr_err (msg : String) : (Result.err msg : Result R).isErr = true := rfl

theorem Result.isOk_ok (r : R) : (Result.ok r : Result R).isOk = true := rfl

theorem Result.isOk_err (msg : String) : (Result.err msg : Result R).isOk = false := rfl

theorem Result.isErr_ok (r : R) : (Result.ok r : Result R).isErr = false := rfl

/-- Each of the four mutating handlers, when it returns an error, returns the state it was
called in. -/
theorem mockServer.CreateNamespace_err_state (s : mockServer M) (req : CreateNamespaceRequest)
    (h : (s.CreateNamespace req).1.isErr = true) : (s.CreateNamespace req).2 = s := by
  by_cases hc : s.namespaces.has req.NamespaceName = true ∧ req.IfNotExists = false
  · rw [mockServer.CreateNamespace_reject s req hc.1 hc.2]
  · rw [(mockServer.CreateNamespace_accept s req hc).1] at h
    simp [Result.isErr] at h

theorem mockServer.DropNamespace_err_state (s : mockServer M) (req : DropNamespaceRequest)
    (h : (s.DropNamespace req).1.isErr = true) : (s.DropNamespace req).2 = s := by
  by_cases hc : s.namespaces.has req.NamespaceName = false ∧ req.IfExists = false
  · rw [mockServer.DropNamespace_reject s req hc.1 hc.2]
  · rw [mockServer.DropNamespace_accept s req hc] at h
    simp [Result.isErr] at h

theorem mockServer.CreateTable_err_state (s : mockServer M) (req : CreateTableRequest M)
    (h : (s.CreateTable req).1.isErr = true) : (s.CreateTable req).2 = s := by
  cases h0 : s.namespaces.has req.NamespaceName with
  | false => rw [mockServer.CreateTable_no_namespace s req h0]
  | true =>
    cases ht : s.tables req.NamespaceName with
    | none => rw [mockServer.CreateTable_nil_collection s req h0 ht]
    | some inner =>
      by_cases hc : (inner req.TableName).isSome = true ∧ req.IfNotExists = false
      · have h1 : (s.tableAt req.NamespaceName req.TableName).isSome = true := by
          rw [mockServer.tableAt_of_present s _ _ inner ht]; exact hc.1
        rw [mockServer.CreateTable_reject s req h0 h1 hc.2]
      · rw [mockServer.CreateTable_accept s req inner h0 ht hc] at h
        simp [Result.isErr] at h

theorem mockServer.DropTable_err_state (s : mockServer M) (req : DropTableRequest)
    (h : (s.DropTable req).1.isErr = true) : (s.DropTable req).2 = s := by
  cases h0 : s.namespaces.has req.NamespaceName with
  | false => rw [mockServer.DropTable_no_namespace s req h0]
  | true =>
    by_cases hc : (s.tableAt req.NamespaceName req.TableName).isSome = false ∧
        req.IfExists = false
    · rw [mockServer.DropTable_reject s req h0 hc.1 hc.2]
    · rw [mockServer.DropTable_accept s req h0 hc] at h
      simp [Result.isErr] at h

end Outcomes

/-! ## The consistency invariant along runs -/

section Invariant

variable {M : Type}

theorem mockServer.Consistent_new : (newMockServer : mockServer M).Consistent :=
  fun _ => rfl

theorem mockServer.Consistent_CreateNamespace (s : mockServer M) (req : CreateNamespaceRequest)
    (h : s.Consistent) : (s.CreateNamespace req).2.Consistent := by
  by_cases hc : s.namespaces.has req.NamespaceName = true ∧ req.IfNotExists = false
  · rw [mockServer.CreateNamespace_reject s req hc.1 hc.2]; exact h
  · obtain ⟨_, hn, ht⟩ := mockServer.CreateNamespace_accept s req hc
    intro n
    rw [hn, ht]
    by_cases hk : n = req.NamespaceName
    · subst hk
      cases hx : s.tables req.NamespaceName <;> simp [GoMap.has, GoMap.set, hx]
    · have := h n
      cases hx : s.tables req.NamespaceName <;>
        simpa [GoMap.has, GoMap.set, hk] using this

theorem mockServer.Consistent_DropNamespace (s : mockServer M) (req : DropNamespaceRequest)
    (h : s.Consistent) : (s.DropNamespace req).2.Consistent := by
  by_cases hc : s.namespaces.has req.NamespaceName = false ∧ req.IfExists = false
  · rw [mockServer.DropNamespace_reject s req hc.1 hc.2]; exact h
  · rw [mockServer.DropNamespace_accept s req hc]
    intro n
    by_cases hk : n = req.NamespaceName
    · subst hk; simp [GoMap.has, GoMap.delete]
    · have := h n
      simpa [GoMap.has, GoMap.delete, hk] using this

theorem mockServer.Consistent_CreateTable (s : mockServer M) (req : CreateTableRequest M)
    (h : s.Consistent) : (s.CreateTable req).2.Consistent := by
  cases h0 : s.namespaces.has req.NamespaceName with
  | false => rw [mockServer.CreateTable_no_namespace s req h0]; exact h
  | true =>
    cases ht : s.tables req.NamespaceName with
    | none => rw [mockServer.CreateTable_nil_collection s req h0 ht]; exact h
    | some inner =>
      by_cases hc : (inner req.TableName).isSome = true ∧ req.IfNotExists = false
      · have h1 : (s.tableAt req.NamespaceName req.TableName).isSome = true := by
          rw [mockServer.tableAt_of_present s _ _ inner ht]; exact hc.1
        rw [mockServer.CreateTable_reject s req h0 h1 hc.2]; exact h
      · rw [mockServer.CreateTable_accept s req inner h0 ht hc]
        intro n
        by_cases hk : n = req.NamespaceName
        · subst hk
          simpa [GoMap.has, GoMap.set] using h0.symm
        · have := h n
          simpa [GoMap.has, GoMap.set, hk] using this

theorem mockServer.Consistent_DropTable (s : mockServer M) (req : DropTableRequest)
    (h : s.Consistent) : (s.DropTable req).2.Consistent := by
  cases h0 : s.namespaces.has req.NamespaceName with
  | false => rw [mockServer.DropTable_no_namespace s req h0]; exact h
  | true =>
    by_cases hc : (s.tableAt req.NamespaceName req.TableName).isSome = false ∧
        req.IfExists = false
    · rw [mockServer.DropTable_reject s req h0 hc.1 hc.2]; exact h
    · rw [mockServer.DropTable_accept s req h0 hc]
      intro n
      cases ht : s.tables req.NamespaceName with
      | none => exact h n
      | some inner =>
        by_cases hk : n = req.NamespaceName
        · subst hk
          simpa [GoMap.has, GoMap.set] using h0.symm
        · have := h n
          simpa [GoMap.has, GoMap.set, hk] using this

/-- In a consistent state the write of `CreateTable` finds the collection it writes into:
the handler does not panic. -/
theorem mockServer.CreateTable_no_panic (s : mockServer M) (req : CreateTableRequest M)
    (h : s.Consistent) : (s.CreateTable req).1.isPanic = false := by
  cases h0 : s.namespaces.has req.NamespaceName with
  | false => rw [mockServer.CreateTable_no_namespace s req h0]; rfl
  | true =>
    cases ht : s.tables req.NamespaceName with
    | none =>
      have := h req.NamespaceName
      simp [GoMap.has, ht] at this
      simp [GoMap.has, this] at h0
    | some inner =>
      by_cases hc : (inner req.TableName).isSome = true ∧ req.IfNotExists = false
      · have h1 : (s.tableAt req.NamespaceName req.TableName).isSome = true := by
          rw [mockServer.tableAt_of_present s _ _ inner ht]; exact hc.1
        rw [mockServer.CreateTable_reject s req h0 h1 hc.2]; rfl
      · rw [mockServer.CreateTable_accept s req inner h0 ht hc]; rfl

theorem mockServer.continueWith_eq {R : Type} (out : Result R × mockServer M)
    (h : out.1.isPanic = false) : mockServer.continueWith out = some out.2 := by
  obtain ⟨r, u⟩ := out
  cases r <;> simp_all [mockServer.continueWith, Result.isPanic]

theorem mockServer.continueWith_some {R : Type} (out : Result R × mockServer M)
    (u : mockServer M) (h : mockServer.continueWith out = some u) : u = out.2 := by
  obtain ⟨r, v⟩ := out
  cases r <;> simp_all [mockServer.continueWith]

theorem mockServer.CreateNamespace_no_panic (s : mockServer M) (req : CreateNamespaceRequest) :
    (s.CreateNamespace req).1.isPanic = false := by
  by_cases hc : s.namespaces.has req.NamespaceName = true ∧ req.IfNotExists = false
  · rw [mockServer.CreateNamespace_reject s req hc.1 hc.2]; rfl
  · rw [(mockServer.CreateNamespace_accept s req hc).1]; rfl

theorem mockServer.DropNamespace_no_panic (s : mockServer M) (req : DropNamespaceRequest) :
    (s.DropNamespace req).1.isPanic = false := by
  by_cases hc : s.namespaces.has req.NamespaceName = false ∧ req.IfExists = false
  · rw [mockServer.DropNamespace_reject s req hc.1 hc.2]; rfl
  · rw [mockServer.DropNamespace_accept s req hc]; rfl

theorem mockServer.DropTable_no_panic (s : mockServer M) (req : DropTableRequest) :
    (s.DropTable req).1.isPanic = false := by
  cases h0 : s.namespaces.has req.NamespaceName with
  | false => rw [mockServer.DropTable_no_namespace s req h0]; rfl
  | true =>
    by_cases hc : (s.tableAt req.NamespaceName req.TableName).isSome = false ∧
        req.IfExists = false
    · rw [mockServer.DropTable_reject s req h0 hc.1 hc.2]; rfl
    · rw [mockServer.DropTable_accept s req h0 hc]; rfl

theorem mockServer.GetTableMetadata_no_panic (s : mockServer M)
    (req : GetTableMetadataRequest) :
    (s.GetTableMetadata req).1.isPanic = false ∧ (s.GetTableMetadata req).2 = s := by
  unfold mockServer.GetTableMetadata
  split
  · exact ⟨rfl, rfl⟩
  · split <;> exact ⟨rfl, rfl⟩

/-- One served call keeps the state consistent. -/
theorem mockServer.Consistent_serve (s u : mockServer M) (c : Call M) (h : s.Consistent)
    (hs : s.serve c = some u) : u.Consistent := by
  cases c with
  | createNamespace req =>
    rw [mockServer.continueWith_some _ u hs]; exact mockServer.Consistent_CreateNamespace s req h
  | dropNamespace req =>
    rw [mockServer.continueWith_some _ u hs]; exact mockServer.Consistent_DropNamespace s req h
  | namespaceExists req =>
    rw [mockServer.continueWith_some (s.NamespaceExists req) u hs,
      mockServer.NamespaceExists_eq]
    exact h
  | createTable req =>
    rw [mockServer.continueWith_some _ u hs]; exact mockServer.Consistent_CreateTable s req h
  | dropTable req =>
    rw [mockServer.continueWith_some _ u hs]; exact mockServer.Consistent_DropTable s req h
  | tableExists req =>
    rw [mockServer.continueWith_some (s.TableExists req) u hs, mockServer.TableExists_eq]
    exact h
  | getTableMetadata req =>
    rw [mockServer.continueWith_some (s.GetTableMetadata req) u hs,
      (mockServer.GetTableMetadata_no_panic s req).2]
    exact h

/-- In a consistent state every call is served: no handler panics. -/
theorem mockServer.serve_isSome (s : mockServer M) (c : Call M) (h : s.Consistent) :
    s.serve c = some
      (match c with
       | .createNamespace req => (s.CreateNamespace req).2
       | .dropNamespace req => (s.DropNamespace req).2
       | .namespaceExists _ => s
       | .createTable req => (s.CreateTable req).2
       | .dropTable req => (s.DropTable req).2
       | .tableExists _ => s
       | .getTableMetadata _ => s) := by
  cases c with
  | createNamespace req =>
    exact mockServer.continueWith_eq _ (mockServer.CreateNamespace_no_panic s req)
  | dropNamespace req =>
    exact mockServer.continueWith_eq _ (mockServer.DropNamespace_no_panic s req)
  | namespaceExists req =>
    show mockServer.continueWith (s.NamespaceExists req) = some s
    rw [mockServer.NamespaceExists_eq]; rfl
  | createTable req =>
    exact mockServer.continueWith_eq _ (mockServer.CreateTable_no_panic s req h)
  | dropTable req =>
    exact mockServer.continueWith_eq _ (mockServer.DropTable_no_panic s req)
  | tableExists req =>
    show mockServer.continueWith (s.TableExists req) = some s
    rw [mockServer.TableExists_eq]; rfl
  | getTableMetadata req =>
    show mockServer.continueWith (s.GetTableMetadata req) = some s
    rw [mockServer.continueWith_eq _ (mockServer.GetTableMetadata_no_panic s req).1,
      (mockServer.GetTableMetadata_no_panic s req).2]

/-- A run from a consistent state ends in a consistent state. -/
theorem mockServer.Consistent_serveAll (calls : List (Call M)) :
    ∀ (s u : mockServer M), s.Consistent → s.serveAll calls = some u → u.Consistent := by
  induction calls with
  | nil =>
    intro s u h hs
    simp [mockServer.serveAll] at hs
    rw [← hs]; exact h
  | cons c cs ih =>
    intro s u h hs
    unfold mockServer.serveAll at hs
    cases hc : s.serve c with
    | none => simp [hc] at hs
    | some s1 =>
      simp only [hc] at hs
      exact ih s1 u (mockServer.Consistent_serve s s1 c h hc) hs

theorem mockServer.serveAll_append (xs ys : List (Call M)) :
    ∀ (s u : mockServer M), s.serveAll xs = some u →
      s.serveAll (xs ++ ys) = u.serveAll ys := by
  induction xs with
  | nil =>
    intro s u hs
    simp [mockServer.serveAll] at hs
    rw [← hs]; rfl
  | cons c cs ih =>
    intro s u hs
    unfold mockServer.serveAll at hs
    cases hc : s.serve c with
    | none => simp [hc] at hs
    | some s1 =>
      simp only [hc] at hs
      show (match s.serve c with
        | none => none
        | some s1 => s1.serveAll (cs ++ ys)) = u.serveAll ys
      rw [hc]
      exact ih s1 u hs

/-- Every reachable state is consistent. -/
theorem mockServer.Reachable.consistent {s : mockServer M} (h : s.Reachable) :
    s.Consistent := by
  obtain ⟨calls, hc⟩ := h
  exact mockServer.Consistent_serveAll calls _ s mockServer.Consistent_new hc

/-- The state after one more served call is again reachable. -/
theorem mockServer.Reachable.step {s u : mockServer M} (h : s.Reachable) (c : Call M)
    (hs : s.serve c = some u) : u.Reachable := by
  obtain ⟨calls, hc⟩ := h
  refine ⟨calls ++ [c], ?_⟩
  rw [mockServer.serveAll_append calls [c] _ s hc]
  simp [mockServer.serveAll, hs]

end Invariant

/-! ## Claims -/

section Claims

variable {M : Type}

/-- C4: in every state, `CreateTable` on a namespace that is absent returns the error
"namespace ... does not exist", whatever the table name, the metadata and `IfNotExists` are,
and the state after the call is the state before it: no table is stored. -/
theorem C4_createTable_absent_namespace (s : mockServer M) (req : CreateTableRequest M)
    (h : s.namespaces.has req.NamespaceName = false) :
    (s.CreateTable req).1 = .err ("namespace " ++ req.NamespaceName ++ " does not exist") ∧
    (s.CreateTable req).2 = s ∧
    (∀ ns t : String, (s.CreateTable req).2.tableAt ns t = s.tableAt ns t) := by
  rw [mockServer.CreateTable_no_namespace s req h]
  exact ⟨rfl, rfl, fun _ _ => rfl⟩

/-- Instance of C4: on the fresh server the dangling-table request of the spec
(`missingNs`, `IfNotExists = true`) is rejected and nothing is stored. -/
theorem C4_createTable_absent_namespace_witness :
    ((newMockServer : mockServer (Option TableMetadata)).CreateTable
        { NamespaceName := "missingNs", TableName := "t",
          TableMetadata := some sampleMetadataA, IfNotExists := true }).1
      = .err "namespace missingNs does not exist" ∧
    ((newMockServer : mockServer (Option TableMetadata)).CreateTable
        { NamespaceName := "missingNs", TableName := "t",
          TableMetadata := some sampleMetadataA, IfNotExists := true }).2
      = newMockServer :=
  have h := C4_createTable_absent_namespace (newMockServer : mockServer (Option TableMetadata))
    { NamespaceName := "missingNs", TableName := "t",
      TableMetadata := some sampleMetadataA, IfNotExists := true } rfl
  ⟨h.1, h.2.1⟩

/-- C5: in every state, `CreateNamespace` returns an error exactly when the name is already
present and `IfNotExists` is false (the error is "namespace ... already exists"); in every
other case it returns a response, and `NamespaceExists` on that name then answers true. -/
theorem C5_createNamespace_fails_iff (s : mockServer M) (req : CreateNamespaceRequest) :
    ((s.CreateNamespace req).1.isErr = true ↔
      (s.namespaces.has req.NamespaceName = true ∧ req.IfNotExists = false)) ∧
    ((s.namespaces.has req.NamespaceName = true ∧ req.IfNotExists = false) →
      (s.CreateNamespace req).1 =
        .err ("namespace " ++ req.NamespaceName ++ " already exists")) ∧
    (¬ (s.namespaces.has req.NamespaceName = true ∧ req.IfNotExists = false) →
      (s.CreateNamespace req).1 = .ok {} ∧
      ∀ hdr : Option RequestHeader,
        ((s.CreateNamespace req).2.NamespaceExists ⟨hdr, req.NamespaceName⟩).1 =
          .ok ⟨true⟩) := by
  refine ⟨?_, ?_, ?_⟩
  · constructor
    · intro h
      by_contra hc
      rw [(mockServer.CreateNamespace_accept s req hc).1] at h
      simp [Result.isErr] at h
    · intro hc
      rw [mockServer.CreateNamespace_reject s req hc.1 hc.2]
      rfl
  · intro hc
    rw [mockServer.CreateNamespace_reject s req hc.1 hc.2]
  · intro hc
    obtain ⟨h1, h2, _⟩ := mockServer.CreateNamespace_accept s req hc
    refine ⟨h1, fun hdr => ?_⟩
    rw [mockServer.NamespaceExists_eq]
    simp [GoMap.has, h2, GoMap.set]

/-- Instance of C5 on the state holding namespace `ns1`: a strict create of `ns1` is
rejected, a strict create of `ns2` is accepted and `ns2` exists afterwards. -/
theorem C5_createNamespace_fails_iff_witness :
    (((newMockServer : mockServer (Option TableMetadata)).CreateNamespace
        { NamespaceName := "ns1" }).2.CreateNamespace { NamespaceName := "ns1" }).1 =
      .err "namespace ns1 already exists" ∧
    (((newMockServer : mockServer (Option TableMetadata)).CreateNamespace
        { NamespaceName := "ns1" }).2.CreateNamespace { NamespaceName := "ns2" }).1 =
      .ok {} :=
  ⟨(C5_createNamespace_fails_iff
      ((newMockServer : mockServer (Option TableMetadata)).CreateNamespace
        { NamespaceName := "ns1" }).2 { NamespaceName := "ns1" }).2.1 (by decide),
   ((C5_createNamespace_fails_iff
      ((newMockServer : mockServer (Option TableMetadata)).CreateNamespace
        { NamespaceName := "ns1" }).2 { NamespaceName := "ns2" }).2.2 (by decide)).1⟩

/-- C8: atomicity on failure.  For each of `CreateNamespace`, `DropNamespace`, `CreateTable`
and `DropTable`, in every state and for every request, if the call returns an error then the
state after the call (both maps) is the state before the call. -/
theorem C8_error_leaves_state (s : mockServer M) :
    (∀ req : CreateNamespaceRequest,
      (s.CreateNamespace req).1.isErr = true → (s.CreateNamespace req).2 = s) ∧
    (∀ req : DropNamespaceRequest,
      (s.DropNamespace req).1.isErr = true → (s.DropNamespace req).2 = s) ∧
    (∀ req : CreateTableRequest M,
      (s.CreateTable req).1.isErr = true → (s.CreateTable req).2 = s) ∧
    (∀ req : DropTableRequest,
      (s.DropTable req).1.isErr = true → (s.DropTable req).2 = s) :=
  ⟨mockServer.CreateNamespace_err_state s, mockServer.DropNamespace_err_state s,
   mockServer.CreateTable_err_state s, mockServer.DropTable_err_state s⟩

/-- C10: in every state, `NamespaceExists` and `TableExists` return a response (never an
error) and the state they were called in; `NamespaceExists` answers true exactly when the
name is a key of `namespaces`, and `TableExists` answers true exactly when the namespace is
present and its collection holds an entry for the table, so false when the namespace is
absent. -/
theorem C10_exists_checks_pure (s : mockServer M) (q : NamespaceExistsRequest)
    (r : TableExistsRequest) :
    (∃ b : Bool, s.NamespaceExists q = (.ok ⟨b⟩, s) ∧
      (b = true ↔ ∃ v : Bool, s.namespaces q.NamespaceName = some v)) ∧
    (∃ b : Bool, s.TableExists r = (.ok ⟨b⟩, s) ∧
      (b = true ↔ (∃ v : Bool, s.namespaces r.NamespaceName = some v) ∧
        ∃ (inner : GoMap M) (md : M),
          s.tables r.NamespaceName = some inner ∧ inner r.TableName = some md) ∧
      ((s.namespaces r.NamespaceName = none) → b = false)) := by
  constructor
  · refine ⟨_, mockServer.NamespaceExists_eq s q, ?_⟩
    simp [GoMap.has, Option.isSome_iff_exists]
  · refine ⟨_, mockServer.TableExists_eq s r, ?_, ?_⟩
    · cases ht : s.tables r.NamespaceName with
      | none => simp [GoMap.has, mockServer.tableAt, ht]
      | some inner => simp [GoMap.has, mockServer.tableAt, ht, Option.isSome_iff_exists]
    · intro h
      simp [GoMap.has, h]

/-- C1: in every state (so in every reachable one), `DropNamespace` returns an error exactly
when the name is absent and `IfExists` is false, and a response in every other case.  When
it returns a response, in the state after the call `NamespaceExists` answers false for the
name, `TableExists` answers false and `GetTableMetadata` returns the namespace error for
every table name under it, and after a `CreateNamespace` of the same name (which succeeds)
`TableExists` still answers false for every table name: no table of the dropped namespace
survives. -/
theorem C1_dropNamespace_cascade (s : mockServer M) (req : DropNamespaceRequest) :
    ((s.DropNamespace req).1.isErr = true ↔
      (s.namespaces.has req.NamespaceName = false ∧ req.IfExists = false)) ∧
    ((s.DropNamespace req).1.isOk = true ↔
      ¬ (s.namespaces.has req.NamespaceName = false ∧ req.IfExists = false)) ∧
    ((s.DropNamespace req).1.isOk = true →
      (∀ hdr : Option RequestHeader,
        ((s.DropNamespace req).2.NamespaceExists ⟨hdr, req.NamespaceName⟩).1 =
          .ok ⟨false⟩) ∧
      (∀ (hdr : Option RequestHeader) (t : String),
        ((s.DropNamespace req).2.TableExists ⟨hdr, req.NamespaceName, t⟩).1 =
          .ok ⟨false⟩) ∧
      (∀ (hdr : Option RequestHeader) (t : String),
        ((s.DropNamespace req).2.GetTableMetadata ⟨hdr, req.NamespaceName, t⟩).1 =
          .err ("namespace " ++ req.NamespaceName ++ " does not exist")) ∧
      (∀ (c : CreateNamespaceRequest), c.NamespaceName = req.NamespaceName →
        ((s.DropNamespace req).2.CreateNamespace c).1 = .ok {} ∧
        ∀ (hdr : Option RequestHeader) (t : String),
          (((s.DropNamespace req).2.CreateNamespace c).2.TableExists
            ⟨hdr, req.NamespaceName, t⟩).1 = .ok ⟨false⟩)) := by
  by_cases hc : s.namespaces.has req.NamespaceName = false ∧ req.IfExists = false
  · rw [mockServer.DropNamespace_reject s req hc.1 hc.2]
    simp [Result.isErr, Result.isOk, hc]
  · rw [mockServer.DropNamespace_accept s req hc]
    refine ⟨by simp [Result.isErr, hc], by simp [Result.isOk, hc], fun _ => ⟨?_, ?_, ?_, ?_⟩⟩
    · intro hdr
      rw [mockServer.NamespaceExists_eq]
      simp [GoMap.has, GoMap.delete]
    · intro hdr t
      rw [mockServer.TableExists_eq]
      simp [GoMap.has, GoMap.delete]
    · intro hdr t
      rw [mockServer.GetTableMetadata_no_namespace]
      simp [GoMap.has, GoMap.delete]
    · intro c hn
      have hacc : ¬ ((mockServer.mk (s.namespaces.delete req.NamespaceName)
          (s.tables.delete req.NamespaceName) : mockServer M).namespaces.has c.NamespaceName
            = true ∧ c.IfNotExists = false) := by
        simp [GoMap.has, GoMap.delete, hn]
      obtain ⟨h1, h2, h3⟩ := mockServer.CreateNamespace_accept _ c hacc
      refine ⟨h1, fun hdr t => ?_⟩
      rw [mockServer.TableExists_eq]
      have ht : ((mockServer.mk (s.namespaces.delete req.NamespaceName)
          (s.tables.delete req.NamespaceName) : mockServer M).CreateNamespace c).2.tableAt
            req.NamespaceName t = none := by
        simp [mockServer.tableAt, h3, hn, GoMap.delete, GoMap.set, GoMap.empty]
      simp [ht]

/-- C2: in every state (so in every reachable one in which the namespace is present),
whenever `CreateTable` returns a response, `TableExists` on the same namespace and table then
answers true, `GetTableMetadata` returns exactly the `TableMetadata` of the request, the
entry stored for every other (namespace, table) pair is what it was, `GetTableMetadata`
answers every other request as before, and the namespaces are unchanged. -/
theorem C2_createTable_stores_verbatim (s : mockServer M) (req : CreateTableRequest M)
    (hok : (s.CreateTable req).1.isOk = true) :
    (∀ hdr : Option RequestHeader,
      ((s.CreateTable req).2.TableExists ⟨hdr, req.NamespaceName, req.TableName⟩).1 =
        .ok ⟨true⟩) ∧
    (∀ hdr : Option RequestHeader,
      ((s.CreateTable req).2.GetTableMetadata ⟨hdr, req.NamespaceName, req.TableName⟩).1 =
        .ok ⟨req.TableMetadata⟩) ∧
    (∀ ns t : String, ¬ (ns = req.NamespaceName ∧ t = req.TableName) →
      (s.CreateTable req).2.tableAt ns t = s.tableAt ns t) ∧
    (∀ q : GetTableMetadataRequest,
      ¬ (q.NamespaceName = req.NamespaceName ∧ q.TableName = req.TableName) →
      ((s.CreateTable req).2.GetTableMetadata q).1 = (s.GetTableMetadata q).1) ∧
    (s.CreateTable req).2.namespaces = s.namespaces := by
  cases h0 : s.namespaces.has req.NamespaceName with
  | false =>
    rw [mockServer.CreateTable_no_namespace s req h0] at hok
    simp [Result.isOk] at hok
  | true =>
    cases ht : s.tables req.NamespaceName with
    | none =>
      rw [mockServer.CreateTable_nil_collection s req h0 ht] at hok
      simp [Result.isOk] at hok
    | some inner =>
      by_cases hc : (inner req.TableName).isSome = true ∧ req.IfNotExists = false
      · have h1 : (s.tableAt req.NamespaceName req.TableName).isSome = true := by
          rw [mockServer.tableAt_of_present s _ _ inner ht]; exact hc.1
        rw [mockServer.CreateTable_reject s req h0 h1 hc.2] at hok
        simp [Result.isOk] at hok
      · rw [mockServer.CreateTable_accept s req inner h0 ht hc]
        have hself : (mockServer.mk s.namespaces (s.tables.set req.NamespaceName
            (inner.set req.TableName req.TableMetadata)) : mockServer M).tableAt
              req.NamespaceName req.TableName = some req.TableMetadata := by
          simp [mockServer.tableAt, GoMap.set]
        have hother : ∀ ns t : String, ¬ (ns = req.NamespaceName ∧ t = req.TableName) →
            (mockServer.mk s.namespaces (s.tables.set req.NamespaceName
              (inner.set req.TableName req.TableMetadata)) : mockServer M).tableAt ns t
              = s.tableAt ns t := by
          intro ns t hne
          by_cases hn : ns = req.NamespaceName
          · subst hn
            have htn : t ≠ req.TableName := fun h => hne ⟨rfl, h⟩
            simp [mockServer.tableAt, GoMap.set, ht, htn]
          · simp [mockServer.tableAt, GoMap.set, hn]
        refine ⟨?_, ?_, hother, ?_, rfl⟩
        · intro hdr
          rw [mockServer.TableExists_eq]
          simp [hself, h0]
        · intro hdr
          rw [mockServer.GetTableMetadata_found _ _ req.TableMetadata h0 hself]
        · intro q hq
          have := hother q.NamespaceName q.TableName hq
          simp only [mockServer.GetTableMetadata, this]
          split
          · rfl
          · split <;> rfl

/-- Instance of C2: on the state holding the empty namespace `ns1`, creating table `t1`
succeeds and the metadata read back is the metadata sent. -/
theorem C2_createTable_stores_verbatim_witness :
    (((newMockServer : mockServer (Option TableMetadata)).CreateNamespace
        { NamespaceName := "ns1" }).2.CreateTable
        { NamespaceName := "ns1", TableName := "t1",
          TableMetadata := some sampleMetadataA }).1.isOk = true ∧
    ((((newMockServer : mockServer (Option TableMetadata)).CreateNamespace
        { NamespaceName := "ns1" }).2.CreateTable
        { NamespaceName := "ns1", TableName := "t1",
          TableMetadata := some sampleMetadataA }).2.GetTableMetadata
        { NamespaceName := "ns1", TableName := "t1" }).1 = .ok ⟨some sampleMetadataA⟩ :=
  ⟨by decide,
   (C2_createTable_stores_verbatim
      ((newMockServer : mockServer (Option TableMetadata)).CreateNamespace
        { NamespaceName := "ns1" }).2
      { NamespaceName := "ns1", TableName := "t1", TableMetadata := some sampleMetadataA }
      (by decide)).2.1 none⟩

/-- C3 (the code departs from the claim): on the reachable state in which `ns1.t1` is stored
with `sampleMetadataA`, `CreateTable` of `ns1.t1` with `sampleMetadataB` and
`IfNotExists = true` returns a response, but it is not a no-op: the state after the call
differs from the state before it and `GetTableMetadata` now returns `sampleMetadataB`. -/
theorem C3_createTable_ifNotExists_replaces :
    serverWithTable.Reachable ∧
    (serverWithTable.GetTableMetadata { NamespaceName := "ns1", TableName := "t1" }).1 =
      .ok ⟨some sampleMetadataA⟩ ∧
    (serverWithTable.CreateTable
      { NamespaceName := "ns1", TableName := "t1", TableMetadata := some sampleMetadataB,
        IfNotExists := true }).1 = .ok {} ∧
    ((serverWithTable.CreateTable
      { NamespaceName := "ns1", TableName := "t1", TableMetadata := some sampleMetadataB,
        IfNotExists := true }).2.GetTableMetadata
        { NamespaceName := "ns1", TableName := "t1" }).1 = .ok ⟨some sampleMetadataB⟩ ∧
    (serverWithTable.CreateTable
      { NamespaceName := "ns1", TableName := "t1", TableMetadata := some sampleMetadataB,
        IfNotExists := true }).2 ≠ serverWithTable := by
  refine ⟨?_, by decide, by decide, by decide, ?_⟩
  · exact ⟨[Call.createNamespace ⟨none, "ns1", GoMap.empty, false⟩,
      Call.createTable ⟨none, "ns1", "t1", some sampleMetadataA, GoMap.empty, false⟩], rfl⟩
  · intro h
    have h1 := congrArg (fun u : mockServer (Option TableMetadata) => u.tableAt "ns1" "t1") h
    revert h1
    decide

/-- C6: in every state, two `CreateNamespace` calls in sequence for the same name, both
with `IfNotExists = true`, both return a response; `NamespaceExists` on the name answers true
afterwards; the state after the second call is the state after the first; and every table
entry of the initial state, those under the name included, is still stored. -/
theorem C6_createNamespace_idempotent (s : mockServer M) (r1 r2 : CreateNamespaceRequest)
    (h1 : r1.IfNotExists = true) (h2 : r2.IfNotExists = true)
    (hn : r2.NamespaceName = r1.NamespaceName) :
    (s.CreateNamespace r1).1 = .ok {} ∧
    ((s.CreateNamespace r1).2.CreateNamespace r2).1 = .ok {} ∧
    (∀ hdr : Option RequestHeader,
      (((s.CreateNamespace r1).2.CreateNamespace r2).2.NamespaceExists
        ⟨hdr, r1.NamespaceName⟩).1 = .ok ⟨true⟩) ∧
    ((s.CreateNamespace r1).2.CreateNamespace r2).2 = (s.CreateNamespace r1).2 ∧
    (∀ ns t : String,
      ((s.CreateNamespace r1).2.CreateNamespace r2).2.tableAt ns t = s.tableAt ns t) := by
  have ha1 : ¬ (s.namespaces.has r1.NamespaceName = true ∧ r1.IfNotExists = false) := by
    simp [h1]
  obtain ⟨e1, n1, t1⟩ := mockServer.CreateNamespace_accept s r1 ha1
  have ha2 : ¬ ((s.CreateNamespace r1).2.namespaces.has r2.NamespaceName = true ∧
      r2.IfNotExists = false) := by
    simp [h2]
  obtain ⟨e2, n2, t2⟩ := mockServer.CreateNamespace_accept (s.CreateNamespace r1).2 r2 ha2
  have hpres : (s.CreateNamespace r1).2.namespaces r1.NamespaceName = some true := by
    rw [n1]; exact GoMap.set_get_self _ _ _
  have hsame : ((s.CreateNamespace r1).2.CreateNamespace r2).2 = (s.CreateNamespace r1).2 := by
    apply mockServer.ext_maps
    · rw [n2, hn]
      exact GoMap.set_same _ _ _ hpres
    · rw [t2, hn, t1]
      cases ht : s.tables r1.NamespaceName with
      | none => simp [GoMap.set]
      | some inner => simp [ht]
  refine ⟨e1, e2, ?_, hsame, ?_⟩
  · intro hdr
    rw [hsame, mockServer.NamespaceExists_eq]
    simp [GoMap.has, hpres]
  · intro ns t
    rw [hsame]
    unfold mockServer.tableAt
    rw [t1]
    cases ht : s.tables r1.NamespaceName with
    | none =>
      by_cases hk : ns = r1.NamespaceName
      · subst hk; simp [GoMap.set, GoMap.empty, ht]
      · simp [GoMap.set, hk]
    | some inner => simp

/-- Instance of C6: the idempotent create of `ns1` issued twice on the state holding
`ns1.t1`; both calls succeed, the second changes nothing, and `t1` is still stored. -/
theorem C6_createNamespace_idempotent_witness :
    (serverWithTable.CreateNamespace { NamespaceName := "ns1", IfNotExists := true }).1 =
      .ok {} ∧
    (((serverWithTable.CreateNamespace
        { NamespaceName := "ns1", IfNotExists := true }).2.CreateNamespace
        { NamespaceName := "ns1", IfNotExists := true }).2.tableAt "ns1" "t1") =
      some (some sampleMetadataA) :=
  have h := C6_createNamespace_idempotent serverWithTable
    { NamespaceName := "ns1", IfNotExists := true }
    { NamespaceName := "ns1", IfNotExists := true } rfl rfl rfl
  ⟨h.1, (h.2.2.2.2 "ns1" "t1").trans (by decide)⟩

/-- C7: in every state (so in every reachable one), `DropTable` returns an error exactly
when the namespace is absent, whatever `IfExists` is, or the table is absent under the
namespace and `IfExists` is false, and a response in every other case.  When it returns a
response, `TableExists` on the same namespace and table then answers false, the namespaces
and the names that have a table collection are unchanged, the entry stored for every other
(namespace, table) pair is what it was, and `GetTableMetadata` answers every other request
as before. -/
theorem C7_dropTable_effect (s : mockServer M) (req : DropTableRequest) :
    ((s.DropTable req).1.isErr = true ↔
      (s.namespaces.has req.NamespaceName = false ∨
        ((s.tableAt req.NamespaceName req.TableName).isSome = false ∧
          req.IfExists = false))) ∧
    ((s.DropTable req).1.isOk = true ↔
      ¬ (s.namespaces.has req.NamespaceName = false ∨
        ((s.tableAt req.NamespaceName req.TableName).isSome = false ∧
          req.IfExists = false))) ∧
    ((s.DropTable req).1.isOk = true →
      (∀ hdr : Option RequestHeader,
        ((s.DropTable req).2.TableExists ⟨hdr, req.NamespaceName, req.TableName⟩).1 =
          .ok ⟨false⟩) ∧
      (s.DropTable req).2.namespaces = s.namespaces ∧
      (∀ n : String, (s.DropTable req).2.tables.has n = s.tables.has n) ∧
      (∀ ns t : String, ¬ (ns = req.NamespaceName ∧ t = req.TableName) →
        (s.DropTable req).2.tableAt ns t = s.tableAt ns t) ∧
      (∀ q : GetTableMetadataRequest,
        ¬ (q.NamespaceName = req.NamespaceName ∧ q.TableName = req.TableName) →
        ((s.DropTable req).2.GetTableMetadata q).1 = (s.GetTableMetadata q).1)) := by
  cases h0 : s.namespaces.has req.NamespaceName with
  | false =>
    rw [mockServer.DropTable_no_namespace s req h0]
    simp [Result.isErr, Result.isOk]
  | true =>
    by_cases hc : (s.tableAt req.NamespaceName req.TableName).isSome = false ∧
        req.IfExists = false
    · rw [mockServer.DropTable_reject s req h0 hc.1 hc.2]
      simp [Result.isErr, Result.isOk, hc]
    · rw [mockServer.DropTable_accept s req h0 hc]
      have hself : (mockServer.mk s.namespaces
          (match s.tables req.NamespaceName with
           | none => s.tables
           | some inner => s.tables.set req.NamespaceName (inner.delete req.TableName)) :
          mockServer M).tableAt req.NamespaceName req.TableName = none := by
        cases ht : s.tables req.NamespaceName with
        | none => simp [mockServer.tableAt, ht]
        | some inner => simp [mockServer.tableAt, GoMap.set, GoMap.delete]
      have hkeys : ∀ n : String, (mockServer.mk s.namespaces
          (match s.tables req.NamespaceName with
           | none => s.tables
           | some inner => s.tables.set req.NamespaceName (inner.delete req.TableName)) :
          mockServer M).tables.has n = s.tables.has n := by
        intro n
        cases ht : s.tables req.NamespaceName with
        | none => simp
        | some inner =>
          by_cases hn : n = req.NamespaceName
          · subst hn; simp [GoMap.has, GoMap.set, ht]
          · simp [GoMap.has, GoMap.set, hn]
      have hother : ∀ ns t : String, ¬ (ns = req.NamespaceName ∧ t = req.TableName) →
          (mockServer.mk s.namespaces
            (match s.tables req.NamespaceName with
             | none => s.tables
             | some inner => s.tables.set req.NamespaceName (inner.delete req.TableName)) :
            mockServer M).tableAt ns t = s.tableAt ns t := by
        intro ns t hne
        cases ht : s.tables req.NamespaceName with
        | none => simp
        | some inner =>
          by_cases hn : ns = req.NamespaceName
          · subst hn
            have htn : t ≠ req.TableName := fun h => hne ⟨rfl, h⟩
            simp [mockServer.tableAt, GoMap.set, GoMap.delete, ht, htn]
          · simp [mockServer.tableAt, GoMap.set, hn]
      refine ⟨⟨fun h => by simp [Result.isErr] at h,
          fun h => h.elim (fun h => by simp at h) (fun h => absurd h hc)⟩,
        ⟨fun _ h => h.elim (fun h => by simp at h) (fun h => hc h), fun _ => rfl⟩,
        fun _ => ⟨?_, rfl, hkeys, hother, ?_⟩⟩
      · intro hdr
        rw [mockServer.TableExists_eq]
        simp [hself]
      · intro q hq
        have := hother q.NamespaceName q.TableName hq
        simp only [mockServer.GetTableMetadata, this]
        split
        · rfl
        · split <;> rfl

/-- C9: in every state reachable from `newMockServer()` by a sequence of `CreateNamespace`,
`DropNamespace`, `CreateTable`, `DropTable` and read calls, `tables` has a collection for a
name exactly when `namespaces` has the name: no table entry is stored under an absent
namespace, every present namespace has an allocated collection, `CreateTable` never panics
on its write, and every further call is served and leads to a reachable state. -/
theorem C9_reachable_consistent (s : mockServer M) (hs : s.Reachable) :
    (∀ n : String, s.tables.has n = true ↔ s.namespaces.has n = true) ∧
    (∀ (n t : String) (md : M), s.tableAt n t = some md → s.namespaces.has n = true) ∧
    (∀ n : String, s.namespaces.has n = true → ∃ inner : GoMap M, s.tables n = some inner) ∧
    (∀ req : CreateTableRequest M, (s.CreateTable req).1.isPanic = false) ∧
    (∀ c : Call M, ∃ u : mockServer M, s.serve c = some u ∧ u.Reachable) := by
  have hcons := hs.consistent
  refine ⟨fun n => by rw [hcons n], ?_, ?_, ?_, ?_⟩
  · intro n t md h
    rw [← hcons n]
    cases ht : s.tables n with
    | none => simp [mockServer.tableAt, ht] at h
    | some inner => simp [GoMap.has, ht]
  · intro n h
    rw [← hcons n] at h
    cases ht : s.tables n with
    | none => simp [GoMap.has, ht] at h
    | some inner => exact ⟨inner, rfl⟩
  · exact fun req => mockServer.CreateTable_no_panic s req hcons
  · intro c
    exact ⟨_, mockServer.serve_isSome s c hcons, hs.step c (mockServer.serve_isSome s c hcons)⟩

/-- Instance of C9 on the reachable state holding `ns1.t1`: the namespace of the stored
table is present and a further `CreateTable` does not panic. -/
theorem C9_reachable_consistent_witness :
    serverWithTable.Reachable ∧
    serverWithTable.namespaces.has "ns1" = true ∧
    (serverWithTable.CreateTable
      ⟨none, "ns1", "t2", some sampleMetadataB, GoMap.empty, false⟩).1.isPanic = false :=
  have hr : serverWithTable.Reachable :=
    ⟨[Call.createNamespace ⟨none, "ns1", GoMap.empty, false⟩,
      Call.createTable ⟨none, "ns1", "t1", some sampleMetadataA, GoMap.empty, false⟩], rfl⟩
  ⟨hr,
   (C9_reachable_consistent serverWithTable hr).2.1 "ns1" "t1" (some sampleMetadataA)
     (by decide),
   (C9_reachable_consistent serverWithTable hr).2.2.2.1 _⟩

/-- Instance of C1, the cascade drop of the spec: dropping `ns1` while it holds `t1`
succeeds and `TableExists` of `ns1.t1` then answers false, also after `ns1` is created
again. -/
theorem C1_dropNamespace_cascade_witness :
    (serverWithTable.DropNamespace ⟨none, "ns1", true⟩).1.isOk = true ∧
    ((serverWithTable.DropNamespace ⟨none, "ns1", true⟩).2.TableExists
      ⟨none, "ns1", "t1"⟩).1 = .ok ⟨false⟩ ∧
    (((serverWithTable.DropNamespace ⟨none, "ns1", true⟩).2.CreateNamespace
      ⟨none, "ns1", GoMap.empty, false⟩).2.TableExists ⟨none, "ns1", "t1"⟩).1 =
        .ok ⟨false⟩ :=
  have h := (C1_dropNamespace_cascade serverWithTable ⟨none, "ns1", true⟩).2.2 (by decide)
  ⟨by decide, h.2.1 none "t1",
   (h.2.2.2 ⟨none, "ns1", GoMap.empty, false⟩ rfl).2 none "t1"⟩

/-- Instance of C7: dropping `ns1.t1` from the state that holds it succeeds, the table is
gone and the namespace is still there. -/
theorem C7_dropTable_effect_witness :
    (serverWithTable.DropTable ⟨none, "ns1", "t1", false⟩).1.isOk = true ∧
    ((serverWithTable.DropTable ⟨none, "ns1", "t1", false⟩).2.TableExists
      ⟨none, "ns1", "t1"⟩).1 = .ok ⟨false⟩ ∧
    (serverWithTable.DropTable ⟨none, "ns1", "t1", false⟩).2.namespaces =
      serverWithTable.namespaces :=
  have h := (C7_dropTable_effect serverWithTable ⟨none, "ns1", "t1", false⟩).2.2 (by decide)
  ⟨by decide, h.1 none, h.2.1⟩

/-- Instance of C8: a rejected call of each mutating handler on the state holding `ns1.t1`
returns that state. -/
theorem C8_error_leaves_state_witness :
    (serverWithTable.CreateNamespace ⟨none, "ns1", GoMap.empty, false⟩).2 = serverWithTable ∧
    (serverWithTable.DropNamespace ⟨none, "ns2", false⟩).2 = serverWithTable ∧
    (serverWithTable.CreateTable
      ⟨none, "ns1", "t1", some sampleMetadataB, GoMap.empty, false⟩).2 = serverWithTable ∧
    (serverWithTable.DropTable ⟨none, "ns1", "t2", false⟩).2 = serverWithTable :=
  ⟨(C8_error_leaves_state serverWithTable).1 _ (by decide),
   (C8_error_leaves_state serverWithTable).2.1 _ (by decide),
   (C8_error_leaves_state serverWithTable).2.2.1 _ (by decide),
   (C8_error_leaves_state serverWithTable).2.2.2 _ (by decide)⟩

/-- Outside the reachable states the panic of `CreateTable` is real: with `ns1` in
`namespaces` and no collection for it in `tables`, the write panics. -/
theorem mockServer.CreateTable_panics_without_collection :
    ((mockServer.mk ((GoMap.empty : GoMap Bool).set "ns1" true) GoMap.empty :
        mockServer (Option TableMetadata)).CreateTable
      ⟨none, "ns1", "t1", some sampleMetadataA, GoMap.empty, true⟩).1 =
      .panic "assignment to entry in nil map" := by
  decide

end Claims

/-! ## The client: converters, resource ID, request flags -/

section ClientBasics

/-- A sequence without the separator is a single piece. -/
theorem splitChars_of_not_mem (sep : Char) (l : List Char) (h : sep ∉ l) :
    splitChars sep l = [l] := by
  induction l with
  | nil => rfl
  | cons c cs ih =>
    have hc : c ≠ sep := fun e => h (by simp [e])
    have hcs : sep ∉ cs := fun e => h (by simp [e])
    simp [splitChars, hc, ih hcs]

/-- Splitting never yields the empty list of pieces. -/
theorem splitChars_ne_nil (sep : Char) (l : List Char) : splitChars sep l ≠ [] := by
  induction l with
  | nil => simp [splitChars]
  | cons c cs ih =>
    unfold splitChars
    split
    · simp
    · split <;> simp

/-- The number of pieces is one more than the number of separators. -/
theorem splitChars_length (sep : Char) (l : List Char) :
    (splitChars sep l).length = l.count sep + 1 := by
  induction l with
  | nil => simp [splitChars]
  | cons c cs ih =>
    unfold splitChars
    by_cases hc : c = sep
    · subst hc; simp [ih]
    · have hne : (c == sep) = false := by simpa using hc
      rw [if_neg hc, List.count_cons, hne]
      cases hs : splitChars sep cs with
      | nil => exact absurd hs (splitChars_ne_nil sep cs)
      | cons piece pieces =>
        rw [hs] at ih
        simpa using ih

/-- A separator after a separator-free prefix cuts the prefix off as the first piece. -/
theorem splitChars_append_sep (sep : Char) (a b : List Char) (h : sep ∉ a) :
    splitChars sep (a ++ sep :: b) = a :: splitChars sep b := by
  induction a with
  | nil => simp [splitChars]
  | cons c cs ih =>
    have hc : c ≠ sep := fun e => h (by simp [e])
    have hcs : sep ∉ cs := fun e => h (by simp [e])
    simp [splitChars, hc, ih hcs]

theorem tableResourceId_data (namespaceName name : String) :
    (tableResourceId namespaceName name).data = namespaceName.data ++ '.' :: name.data := by
  simp [tableResourceId, String.data_append]

theorem stringsSplitDot_id_length (namespaceName name : String) :
    (stringsSplitDot (tableResourceId namespaceName name)).length =
      namespaceName.data.count '.' + name.data.count '.' + 2 := by
  simp [stringsSplitDot, tableResourceId_data, splitChars_length, List.count_append]
  omega

theorem Client.ensureConnected_ok (c : Client) (t : Transport)
    (h : c.admin = true ∨ t.dialErr = none) :
    c.ensureConnected t = (none, { c with admin := true }) := by
  unfold Client.ensureConnected
  cases ha : c.admin with
  | true =>
    obtain ⟨a, b, u, p, adm⟩ := c
    simp at ha
    simp [ha]
  | false =>
    have hd : t.dialErr = none := by
      rcases h with h | h
      · simp [ha] at h
      · exact h
    simp [Client.Connect, hd]

/-- With `IfNotExists` set the service accepts every `CreateNamespace`. -/
theorem mockServer.CreateNamespace_ifNotExists {M : Type} (s : mockServer M)
    (req : CreateNamespaceRequest) (h : req.IfNotExists = true) :
    (s.CreateNamespace req).1 = .ok {} :=
  (mockServer.CreateNamespace_accept s req (by simp [h])).1

/-- With `IfExists` set the service accepts every `DropNamespace`. -/
theorem mockServer.DropNamespace_ifExists {M : Type} (s : mockServer M)
    (req : DropNamespaceRequest) (h : req.IfExists = true) :
    (s.DropNamespace req).1 = .ok {} := by
  rw [mockServer.DropNamespace_accept s req (by simp [h])]

end ClientBasics

section ClientClaims

/-- C14: the enum converters are total functions with a lenient default.  `convertDataType`
maps each of the eleven type names to the data type of that name and every other string
(among them `UUID` and the lower-case `int`) to `TEXT`; `convertClusteringOrder` maps `ASC`
to ascending, `DESC` to descending and every other string (among them `RANDOM`) to
ascending. -/
theorem C14_converters_total_lenient :
    convertDataType "BOOLEAN" = .DATA_TYPE_BOOLEAN ∧
    convertDataType "INT" = .DATA_TYPE_INT ∧
    convertDataType "BIGINT" = .DATA_TYPE_BIGINT ∧
    convertDataType "FLOAT" = .DATA_TYPE_FLOAT ∧
    convertDataType "DOUBLE" = .DATA_TYPE_DOUBLE ∧
    convertDataType "TEXT" = .DATA_TYPE_TEXT ∧
    convertDataType "BLOB" = .DATA_TYPE_BLOB ∧
    convertDataType "DATE" = .DATA_TYPE_DATE ∧
    convertDataType "TIME" = .DATA_TYPE_TIME ∧
    convertDataType "TIMESTAMP" = .DATA_TYPE_TIMESTAMP ∧
    convertDataType "TIMESTAMPTZ" = .DATA_TYPE_TIMESTAMPTZ ∧
    (∀ s : String,
      s ∉ ["BOOLEAN", "INT", "BIGINT", "FLOAT", "DOUBLE", "TEXT", "BLOB", "DATE", "TIME",
        "TIMESTAMP", "TIMESTAMPTZ"] → convertDataType s = .DATA_TYPE_TEXT) ∧
    convertDataType "UUID" = .DATA_TYPE_TEXT ∧
    convertDataType "int" = .DATA_TYPE_TEXT ∧
    convertClusteringOrder "ASC" = .CLUSTERING_ORDER_ASC ∧
    convertClusteringOrder "DESC" = .CLUSTERING_ORDER_DESC ∧
    (∀ s : String, s ∉ ["ASC", "DESC"] →
      convertClusteringOrder s = .CLUSTERING_ORDER_ASC) ∧
    convertClusteringOrder "RANDOM" = .CLUSTERING_ORDER_ASC := by
  refine ⟨by decide, by decide, by decide, by decide, by decide, by decide, by decide,
    by decide, by decide, by decide, by decide, ?_, by decide, by decide, by decide,
    by decide, ?_, by decide⟩
  · intro s hs
    simp only [List.mem_cons, List.mem_singleton, List.not_mem_nil, or_false, not_or] at hs
    obtain ⟨h1, h2, h3, h4, h5, h6, h7, h8, h9, h10, h11⟩ := hs
    simp [convertDataType, h1, h2, h3, h4, h5, h7, h8, h9, h10, h11]
  · intro s hs
    simp only [List.mem_cons, List.mem_singleton, List.not_mem_nil, or_false, not_or] at hs
    simp [convertClusteringOrder, hs.1, hs.2]

/-- Instance of C14 at the string `uuid`, which is none of the eleven names. -/
theorem C14_converters_total_lenient_witness :
    convertDataType "uuid" = .DATA_TYPE_TEXT :=
  C14_converters_total_lenient.2.2.2.2.2.2.2.2.2.2.2.1 "uuid" (by decide)

/-- C20: for every namespace and table name, the ID `namespace.name` that
`resourceScalarDBTableCreate` sets is accepted by the ID parsing of the read and delete
functions exactly when neither string contains a dot, and it is then parsed back to the
pair (namespace, name); when either contains a dot the parse returns the invalid-ID-format
error. -/
theorem C20_table_id_round_trip (namespaceName name : String) :
    (parseTableResourceId (tableResourceId namespaceName name) = .ok (namespaceName, name) ↔
      ('.' ∉ namespaceName.data ∧ '.' ∉ name.data)) ∧
    ((∃ parts : String × String,
        parseTableResourceId (tableResourceId namespaceName name) = .ok parts) ↔
      ('.' ∉ namespaceName.data ∧ '.' ∉ name.data)) ∧
    (('.' ∈ namespaceName.data ∨ '.' ∈ name.data) →
      parseTableResourceId (tableResourceId namespaceName name) =
        .error ("Invalid ID format: " ++ tableResourceId namespaceName name ++
          " (expected namespace.table)")) := by
  have hgood : ('.' ∉ namespaceName.data ∧ '.' ∉ name.data) →
      parseTableResourceId (tableResourceId namespaceName name) =
        .ok (namespaceName, name) := by
    intro h
    have hs : stringsSplitDot (tableResourceId namespaceName name) =
        [namespaceName, name] := by
      simp [stringsSplitDot, tableResourceId_data, splitChars_append_sep _ _ _ h.1,
        splitChars_of_not_mem _ _ h.2]
    simp [parseTableResourceId, hs]
  have hbad : ('.' ∈ namespaceName.data ∨ '.' ∈ name.data) →
      parseTableResourceId (tableResourceId namespaceName name) =
        .error ("Invalid ID format: " ++ tableResourceId namespaceName name ++
          " (expected namespace.table)") := by
    intro h
    have hlen := stringsSplitDot_id_length namespaceName name
    have hpos : 0 < namespaceName.data.count '.' + name.data.count '.' := by
      rcases h with h | h
      · have := List.count_pos_iff.mpr h; omega
      · have := List.count_pos_iff.mpr h; omega
    unfold parseTableResourceId
    split
    · rename_i a b heq
      rw [heq] at hlen
      simp at hlen
      omega
    · rfl
  have hdec : ¬ ('.' ∉ namespaceName.data ∧ '.' ∉ name.data) →
      ('.' ∈ namespaceName.data ∨ '.' ∈ name.data) := by
    intro h
    by_contra hc
    exact h ⟨fun h1 => hc (Or.inl h1), fun h2 => hc (Or.inr h2)⟩
  refine ⟨⟨fun h => ?_, hgood⟩, ⟨fun h => ?_, fun h => ⟨_, hgood h⟩⟩, hbad⟩
  · by_contra hc
    rw [hbad (hdec hc)] at h
    cases h
  · by_contra hc
    obtain ⟨parts, hp⟩ := h
    rw [hbad (hdec hc)] at hp
    cases hp

/-- Instance of C20: the ID of table `t1` in `ns1` parses back, and the ID of table `t1` in
a namespace named `n.s` is rejected. -/
theorem C20_table_id_round_trip_witness :
    parseTableResourceId (tableResourceId "ns1" "t1") = .ok ("ns1", "t1") ∧
    parseTableResourceId (tableResourceId "n.s" "t1") =
      .error "Invalid ID format: n.s.t1 (expected namespace.table)" :=
  ⟨(C20_table_id_round_trip "ns1" "t1").1.mpr (by decide),
   (C20_table_id_round_trip "n.s" "t1").2.2 (by decide)⟩

/-- C17: every mutating request the client builds carries its idempotency flag, whatever the
arguments are: `IfNotExists = true` in the create requests, `IfExists = true` in the drop
requests.  Once the connection is available, each of the four mutating methods sends
exactly that request, with the names it was given, to the service: the service goes on in
the state its handler leaves, and the method returns an error exactly when the handler does
not return a response; a request a method sends always has the flag set.  When the
connection attempt fails, the method returns the connection error and sends nothing.
Consequently, run against the reference service, `CreateNamespace` returns no error on a
namespace that already exists, which is still present afterwards, and `DeleteNamespace`
returns no error on a namespace that is absent, which is still absent afterwards. -/
theorem C17_idempotency_flags (c : Client) (t : Transport)
    (renderMap : List (String × GoValue) → String)
    (srv : mockServer (Option TableMetadata)) :
    (∀ (name : String) (options : List (String × GoValue)),
      (c.createNamespaceRequest renderMap name options).IfNotExists = true) ∧
    (∀ (namespaceName name : String) (columns : List (String × GoMap GoValue))
        (options : List (String × GoValue)),
      (c.createTableRequest renderMap namespaceName name columns options).IfNotExists
        = true) ∧
    (∀ name : String, (c.deleteNamespaceRequest name).IfExists = true) ∧
    (∀ namespaceName name : String,
      (c.deleteTableRequest namespaceName name).IfExists = true) ∧
    (∀ (name : String) (options : List (String × GoValue)) (req : CreateNamespaceRequest),
      (c.CreateNamespace t renderMap srv name options).sent = some req →
        req.IfNotExists = true) ∧
    (∀ (namespaceName name : String) (columns : List (String × GoMap GoValue))
        (options : List (String × GoValue)) (req : CreateTableRequest (Option TableMetadata)),
      (c.CreateTable t renderMap srv namespaceName name columns options).sent = some req →
        req.IfNotExists = true) ∧
    (∀ (name : String) (req : DropNamespaceRequest),
      (c.DeleteNamespace t srv name).sent = some req → req.IfExists = true) ∧
    (∀ (namespaceName name : String) (req : DropTableRequest),
      (c.DeleteTable t srv namespaceName name).sent = some req → req.IfExists = true) ∧
    (∀ (name : String) (options : List (String × GoValue)),
      (c.admin = true ∨ t.dialErr = none) → srv.namespaces.has name = true →
        (c.CreateNamespace t renderMap srv name options).err = none) ∧
    (∀ name : String,
      (c.admin = true ∨ t.dialErr = none) → srv.namespaces.has name = false →
        (c.DeleteNamespace t srv name).err = none) ∧
    ((c.admin = true ∨ t.dialErr = none) →
      (∀ (name : String) (options : List (String × GoValue)),
        ∃ req : CreateNamespaceRequest,
          (c.CreateNamespace t renderMap srv name options).sent = some req ∧
          req.NamespaceName = name ∧ req.IfNotExists = true ∧
          req.Options = namespaceStrOptions renderMap options ∧
          (c.CreateNamespace t renderMap srv name options).server =
            mockServer.continueWith (srv.CreateNamespace req) ∧
          ((c.CreateNamespace t renderMap srv name options).err = none ↔
            (srv.CreateNamespace req).1.isOk = true)) ∧
      (∀ (namespaceName name : String) (columns : List (String × GoMap GoValue))
          (options : List (String × GoValue)),
        ∃ req : CreateTableRequest (Option TableMetadata),
          (c.CreateTable t renderMap srv namespaceName name columns options).sent
            = some req ∧
          req.NamespaceName = namespaceName ∧ req.TableName = name ∧
          req.IfNotExists = true ∧
          req.TableMetadata = some (buildTableMetadata columns options) ∧
          req.Options = tableStrOptions renderMap options ∧
          (c.CreateTable t renderMap srv namespaceName name columns options).server =
            mockServer.continueWith (srv.CreateTable req) ∧
          ((c.CreateTable t renderMap srv namespaceName name columns options).err = none ↔
            (srv.CreateTable req).1.isOk = true)) ∧
      (∀ name : String,
        ∃ req : DropNamespaceRequest,
          (c.DeleteNamespace t srv name).sent = some req ∧
          req.NamespaceName = name ∧ req.IfExists = true ∧
          (c.DeleteNamespace t srv name).server =
            mockServer.continueWith (srv.DropNamespace req) ∧
          ((c.DeleteNamespace t srv name).err = none ↔
            (srv.DropNamespace req).1.isOk = true)) ∧
      (∀ namespaceName name : String,
        ∃ req : DropTableRequest,
          (c.DeleteTable t srv namespaceName name).sent = some req ∧
          req.NamespaceName = namespaceName ∧ req.TableName = name ∧
          req.IfExists = true ∧
          (c.DeleteTable t srv namespaceName name).server =
            mockServer.continueWith (srv.DropTable req) ∧
          ((c.DeleteTable t srv namespaceName name).err = none ↔
            (srv.DropTable req).1.isOk = true))) ∧
    (∀ dialError : String, c.admin = false → t.dialErr = some dialError →
      (∀ (name : String) (options : List (String × GoValue)),
        (c.CreateNamespace t renderMap srv name options).sent = none ∧
        (c.CreateNamespace t renderMap srv name options).err =
          some ("failed to connect to ScalarDB server: " ++ dialError) ∧
        (c.CreateNamespace t renderMap srv name options).server = some srv) ∧
      (∀ name : String,
        (c.DeleteNamespace t srv name).sent = none ∧
        (c.DeleteNamespace t srv name).err =
          some ("failed to connect to ScalarDB server: " ++ dialError) ∧
        (c.DeleteNamespace t srv name).server = some srv)) ∧
    ((c.admin = true ∨ t.dialErr = none) →
      (∀ (name : String) (options : List (String × GoValue)),
        srv.namespaces.has name = true →
        ∃ after : mockServer (Option TableMetadata),
          (c.CreateNamespace t renderMap srv name options).server = some after ∧
          after.namespaces.has name = true ∧
          ∀ ns tbl : String, after.tableAt ns tbl = srv.tableAt ns tbl) ∧
      (∀ name : String, srv.namespaces.has name = false →
        ∃ after : mockServer (Option TableMetadata),
          (c.DeleteNamespace t srv name).server = some after ∧
          after.namespaces.has name = false ∧
          after.namespaces = srv.namespaces)) := by
  have hCN : ∀ (name : String) (options : List (String × GoValue)),
      (c.admin = true ∨ t.dialErr = none) →
      c.CreateNamespace t renderMap srv name options =
        ⟨stubError t "failed to create namespace"
            (srv.CreateNamespace (({ c with admin := true } : Client).createNamespaceRequest
              renderMap name options)).1,
          { c with admin := true },
          some (({ c with admin := true } : Client).createNamespaceRequest renderMap name
            options),
          mockServer.continueWith
            (srv.CreateNamespace (({ c with admin := true } : Client).createNamespaceRequest
              renderMap name options))⟩ := by
    intro name options hconn
    simp only [Client.CreateNamespace, Client.ensureConnected_ok c t hconn]
  have hDN : ∀ name : String, (c.admin = true ∨ t.dialErr = none) →
      c.DeleteNamespace t srv name =
        ⟨stubError t "failed to delete namespace"
            (srv.DropNamespace (({ c with admin := true } : Client).deleteNamespaceRequest
              name)).1,
          { c with admin := true },
          some (({ c with admin := true } : Client).deleteNamespaceRequest name),
          mockServer.continueWith
            (srv.DropNamespace (({ c with admin := true } : Client).deleteNamespaceRequest
              name))⟩ := by
    intro name hconn
    simp only [Client.DeleteNamespace, Client.ensureConnected_ok c t hconn]
  have hCT : ∀ (namespaceName name : String) (columns : List (String × GoMap GoValue))
      (options : List (String × GoValue)), (c.admin = true ∨ t.dialErr = none) →
      c.CreateTable t renderMap srv namespaceName name columns options =
        ⟨stubError t "failed to create table"
            (srv.CreateTable (({ c with admin := true } : Client).createTableRequest
              renderMap namespaceName name columns options)).1,
          { c with admin := true },
          some (({ c with admin := true } : Client).createTableRequest renderMap
            namespaceName name columns options),
          mockServer.continueWith
            (srv.CreateTable (({ c with admin := true } : Client).createTableRequest
              renderMap namespaceName name columns options))⟩ := by
    intro namespaceName name columns options hconn
    simp only [Client.CreateTable, Client.ensureConnected_ok c t hconn]
  have hDT : ∀ (namespaceName name : String), (c.admin = true ∨ t.dialErr = none) →
      c.DeleteTable t srv namespaceName name =
        ⟨stubError t "failed to delete table"
            (srv.DropTable (({ c with admin := true } : Client).deleteTableRequest
              namespaceName name)).1,
          { c with admin := true },
          some (({ c with admin := true } : Client).deleteTableRequest namespaceName name),
          mockServer.continueWith
            (srv.DropTable (({ c with admin := true } : Client).deleteTableRequest
              namespaceName name))⟩ := by
    intro namespaceName name hconn
    simp only [Client.DeleteTable, Client.ensureConnected_ok c t hconn]
  have hstub : ∀ {R : Type} (what : String) (r : Result R),
      (stubError t what r = none ↔ r.isOk = true) := by
    intro R what r
    cases r <;> simp [stubError, Result.isOk]
  have hfail : ∀ dialError : String, c.admin = false → t.dialErr = some dialError →
      c.ensureConnected t =
        (some ("failed to connect to ScalarDB server: " ++ dialError), c) := by
    intro dialError ha hd
    simp [Client.ensureConnected, Client.Connect, ha, hd]
  refine ⟨fun _ _ => rfl, fun _ _ _ _ => rfl, fun _ => rfl, fun _ _ => rfl, ?_, ?_, ?_, ?_,
    ?_, ?_, ?_, ?_, ?_⟩
  · intro name options req h
    unfold Client.CreateNamespace at h
    split at h
    · simp at h
    · simp at h; rw [← h]; rfl
  · intro namespaceName name columns options req h
    unfold Client.CreateTable at h
    split at h
    · simp at h
    · simp at h; rw [← h]; rfl
  · intro name req h
    unfold Client.DeleteNamespace at h
    split at h
    · simp at h
    · simp at h; rw [← h]; rfl
  · intro namespaceName name req h
    unfold Client.DeleteTable at h
    split at h
    · simp at h
    · simp at h; rw [← h]; rfl
  · intro name options hconn _
    have hok := mockServer.CreateNamespace_ifNotExists srv
      (({ c with admin := true } : Client).createNamespaceRequest renderMap name options) rfl
    rw [hCN name options hconn]
    simp only [hok, stubError]
  · intro name hconn _
    have hok := mockServer.DropNamespace_ifExists srv
      (({ c with admin := true } : Client).deleteNamespaceRequest name) rfl
    rw [hDN name hconn]
    simp only [hok, stubError]
  · intro hconn
    refine ⟨fun name options => ?_, fun namespaceName name columns options => ?_,
      fun name => ?_, fun namespaceName name => ?_⟩
    · rw [hCN name options hconn]
      exact ⟨_, rfl, rfl, rfl, rfl, rfl, hstub _ _⟩
    · rw [hCT namespaceName name columns options hconn]
      exact ⟨_, rfl, rfl, rfl, rfl, rfl, rfl, rfl, hstub _ _⟩
    · rw [hDN name hconn]
      exact ⟨_, rfl, rfl, rfl, rfl, hstub _ _⟩
    · rw [hDT namespaceName name hconn]
      exact ⟨_, rfl, rfl, rfl, rfl, rfl, hstub _ _⟩
  · intro dialError ha hd
    refine ⟨fun name options => ?_, fun name => ?_⟩
    · simp [Client.CreateNamespace, hfail dialError ha hd]
    · simp [Client.DeleteNamespace, hfail dialError ha hd]
  · intro hconn
    refine ⟨fun name options hpres => ?_, fun name habs => ?_⟩
    · rw [hCN name options hconn]
      have hreq : (({ c with admin := true } : Client).createNamespaceRequest renderMap name
          options).IfNotExists = true := rfl
      have hacc : ¬ (srv.namespaces.has (({ c with admin := true } : Client).createNamespaceRequest
          renderMap name options).NamespaceName = true ∧
          (({ c with admin := true } : Client).createNamespaceRequest renderMap name
            options).IfNotExists = false) := by
        simp [hreq]
      obtain ⟨hok, hn, ht⟩ := mockServer.CreateNamespace_accept srv _ hacc
      have hn1 : (srv.CreateNamespace (({ c with admin := true } : Client).createNamespaceRequest
          renderMap name options)).2.namespaces = srv.namespaces.set name true := hn
      refine ⟨(srv.CreateNamespace (({ c with admin := true } : Client).createNamespaceRequest
        renderMap name options)).2, ?_, ?_, ?_⟩
      · exact mockServer.continueWith_eq _ (mockServer.CreateNamespace_no_panic srv _)
      · rw [hn1]
        simp [GoMap.has, GoMap.set]
      · intro ns tbl
        unfold mockServer.tableAt
        rw [ht]
        simp only [Client.createNamespaceRequest]
        cases hx : srv.tables name with
        | none =>
          by_cases hk : ns = name
          · subst hk; simp [GoMap.set, GoMap.empty, hx]
          · simp [GoMap.set, hk]
        | some inner => simp
    · rw [hDN name hconn]
      have hacc : ¬ (srv.namespaces.has
          (({ c with admin := true } : Client).deleteNamespaceRequest name).NamespaceName
            = false ∧
          (({ c with admin := true } : Client).deleteNamespaceRequest name).IfExists
            = false) := by
        intro h
        exact absurd h.2 (by simp [Client.deleteNamespaceRequest])
      have hdrop := mockServer.DropNamespace_accept srv _ hacc
      refine ⟨(srv.DropNamespace (({ c with admin := true } : Client).deleteNamespaceRequest
        name)).2, ?_, ?_, ?_⟩
      · exact mockServer.continueWith_eq _ (mockServer.DropNamespace_no_panic srv _)
      · rw [hdrop]
        simp [GoMap.has, GoMap.delete, Client.deleteNamespaceRequest]
      · rw [hdrop]
        funext j
        by_cases hj : j = name
        · subst hj
          have : srv.namespaces j = none := by
            simpa [GoMap.has] using habs
          simp [GoMap.delete, Client.deleteNamespaceRequest, this]
        · simp [GoMap.delete, Client.deleteNamespaceRequest, hj]

/-- Instance of C17 on the state that holds `ns1`: the client's create of `ns1` sends a
request with `IfNotExists` set and returns no error, and its delete of the absent `ns2`
sends a request with `IfExists` set and returns no error. -/
theorem C17_idempotency_flags_witness :
    (sampleClient.CreateNamespace sampleTransport sampleRenderMap serverWithTable "ns1"
      []).err = none ∧
    (sampleClient.DeleteNamespace sampleTransport serverWithTable "ns2").err = none ∧
    (∃ req : CreateNamespaceRequest,
      (sampleClient.CreateNamespace sampleTransport sampleRenderMap serverWithTable "ns1"
        []).sent = some req ∧ req.NamespaceName = "ns1" ∧ req.IfNotExists = true) ∧
    (∃ req : DropNamespaceRequest,
      (sampleClient.DeleteNamespace sampleTransport serverWithTable "ns2").sent = some req ∧
      req.NamespaceName = "ns2" ∧ req.IfExists = true) :=
  have h := C17_idempotency_flags sampleClient sampleTransport sampleRenderMap serverWithTable
  have hsent := h.2.2.2.2.2.2.2.2.2.2.1 (Or.inl rfl)
  ⟨h.2.2.2.2.2.2.2.2.1 "ns1" [] (Or.inl rfl) (by decide),
   h.2.2.2.2.2.2.2.2.2.1 "ns2" (Or.inl rfl) (by decide),
   (hsent.1 "ns1" []).imp (fun _ hr => ⟨hr.1, hr.2.1, hr.2.2.1⟩),
   (hsent.2.2.1 "ns2").imp (fun _ hr => ⟨hr.1, hr.2.1, hr.2.2.1⟩)⟩

end ClientClaims

/-! ## The metadata the client builds -/

section Metadata

variable {V : Type}

theorem Entries.mem_keys_set (m : List (String × V)) (k j : String) (v : V) :
    j ∈ Entries.keys (Entries.set m k v) ↔ j = k ∨ j ∈ Entries.keys m := by
  induction m with
  | nil => simp [Entries.set, Entries.keys]
  | cons e rest ih =>
    obtain ⟨k0, v0⟩ := e
    unfold Entries.set
    by_cases h : k0 = k
    · subst h
      simp [Entries.keys]
    · have ih1 : j ∈ List.map Prod.fst (Entries.set rest k v) ↔
          j = k ∨ j ∈ List.map Prod.fst rest := ih
      simp only [h, ↓reduceIte, Entries.keys, List.map_cons, List.mem_cons, ih1]
      tauto

theorem flagSet_eq_true (colProps : GoMap GoValue) (flag : String) :
    flagSet colProps flag = true ↔ colProps flag = some (.bool true) := by
  unfold flagSet
  cases h : colProps flag with
  | none => simp [GoValue.asBool]
  | some v => cases v <;> simp [GoValue.asBool]

theorem asString_isSome (colProps : GoMap GoValue) (key : String) :
    (GoValue.asString (colProps key)).isSome = true ↔
      ∃ s : String, colProps key = some (.str s) := by
  cases h : colProps key with
  | none => simp [GoValue.asString]
  | some v => cases v <;> simp [GoValue.asString]

/-- What one pass of the column loop does to each field of the metadata. -/
theorem processColumn_fields (md : TableMetadata) (colName : String)
    (colProps : GoMap GoValue) :
    (processColumn md colName colProps).Columns =
      (match GoValue.asString (colProps "type") with
       | some dataTypeStr => Entries.set md.Columns colName (convertDataType dataTypeStr)
       | none => md.Columns) ∧
    (processColumn md colName colProps).PartitionKeyColumnNames =
      md.PartitionKeyColumnNames ++
        (if flagSet colProps "partition_key" then [colName] else []) ∧
    (processColumn md colName colProps).ClusteringKeyColumnNames =
      md.ClusteringKeyColumnNames ++
        (if flagSet colProps "clustering_key" then [colName] else []) ∧
    (processColumn md colName colProps).SecondaryIndexColumnNames =
      md.SecondaryIndexColumnNames ++
        (if flagSet colProps "secondary_index" then [colName] else []) ∧
    (processColumn md colName colProps).EncryptedColumns =
      md.EncryptedColumns ++ (if flagSet colProps "encrypted" then [colName] else []) ∧
    (processColumn md colName colProps).ClusteringOrders = md.ClusteringOrders := by
  unfold processColumn addEncrypted addSecondaryIndex addClusteringKey addPartitionKey
    addColumnType
  cases GoValue.asString (colProps "type") <;>
    cases flagSet colProps "partition_key" <;>
    cases flagSet colProps "clustering_key" <;>
    cases flagSet colProps "secondary_index" <;>
    cases flagSet colProps "encrypted" <;> simp

theorem processColumns_lists (columns : List (String × GoMap GoValue)) :
    ∀ md : TableMetadata,
    (processColumns md columns).PartitionKeyColumnNames =
      md.PartitionKeyColumnNames ++ flagged "partition_key" columns ∧
    (processColumns md columns).ClusteringKeyColumnNames =
      md.ClusteringKeyColumnNames ++ flagged "clustering_key" columns ∧
    (processColumns md columns).SecondaryIndexColumnNames =
      md.SecondaryIndexColumnNames ++ flagged "secondary_index" columns ∧
    (processColumns md columns).EncryptedColumns =
      md.EncryptedColumns ++ flagged "encrypted" columns ∧
    (processColumns md columns).ClusteringOrders = md.ClusteringOrders := by
  induction columns with
  | nil => intro md; simp [processColumns, flagged]
  | cons col rest ih =>
    intro md
    obtain ⟨_, h2, h3, h4, h5, h6⟩ := processColumn_fields md col.1 col.2
    obtain ⟨i2, i3, i4, i5, i6⟩ := ih (processColumn md col.1 col.2)
    have hstep : processColumns md (col :: rest) =
        processColumns (processColumn md col.1 col.2) rest := rfl
    rw [hstep, i2, i3, i4, i5, i6, h2, h3, h4, h5, h6]
    refine ⟨?_, ?_, ?_, ?_, rfl⟩ <;>
    · unfold flagged
      rw [List.filter_cons]
      split <;> simp

theorem processColumn_keys (md : TableMetadata) (c : String) (p : GoMap GoValue)
    (n : String) :
    n ∈ Entries.keys (processColumn md c p).Columns ↔
      n ∈ Entries.keys md.Columns ∨ (n = c ∧ ∃ s : String, p "type" = some (.str s)) := by
  rw [(processColumn_fields md c p).1]
  cases ht : p "type" with
  | none => simp [GoValue.asString]
  | some v =>
    cases v <;> simp [GoValue.asString, Entries.mem_keys_set]
    tauto

theorem processColumns_keys (columns : List (String × GoMap GoValue)) :
    ∀ (md : TableMetadata) (n : String),
    n ∈ Entries.keys (processColumns md columns).Columns ↔
      n ∈ Entries.keys md.Columns ∨
      ∃ colProps : GoMap GoValue, (n, colProps) ∈ columns ∧
        ∃ s : String, colProps "type" = some (.str s) := by
  induction columns with
  | nil => intro md n; simp [processColumns]
  | cons col rest ih =>
    intro md n
    obtain ⟨c, p⟩ := col
    have hstep : processColumns md ((c, p) :: rest) =
        processColumns (processColumn md c p) rest := rfl
    rw [hstep, ih, processColumn_keys]
    constructor
    · rintro ((h | ⟨h, s, hs⟩) | ⟨q, hq, s, hs⟩)
      · exact Or.inl h
      · exact Or.inr ⟨p, by simp [h], s, hs⟩
      · exact Or.inr ⟨q, by simp [hq], s, hs⟩
    · rintro (h | ⟨q, hq, s, hs⟩)
      · exact Or.inl (Or.inl h)
      · rcases List.mem_cons.mp hq with hq | hq
        · simp only [Prod.mk.injEq] at hq
          rw [hq.2] at hs
          exact Or.inl (Or.inr ⟨hq.1, s, hs⟩)
        · exact Or.inr ⟨q, hq, s, hs⟩

/-- The clustering-order block touches only `ClusteringOrders`. -/
theorem addClusteringOrders_fields (md : TableMetadata) (options : List (String × GoValue)) :
    (addClusteringOrders md options).Columns = md.Columns ∧
    (addClusteringOrders md options).PartitionKeyColumnNames = md.PartitionKeyColumnNames ∧
    (addClusteringOrders md options).ClusteringKeyColumnNames = md.ClusteringKeyColumnNames ∧
    (addClusteringOrders md options).SecondaryIndexColumnNames
      = md.SecondaryIndexColumnNames ∧
    (addClusteringOrders md options).EncryptedColumns = md.EncryptedColumns := by
  unfold addClusteringOrders
  cases GoValue.asMap (Entries.get options "clustering_order") with
  | none => simp
  | some m =>
    simp only
    induction m generalizing md with
    | nil => simp
    | cons e rest ih =>
      rw [List.foldl_cons]
      cases hs : GoValue.asString (some e.2) with
      | none => simpa using ih md
      | some orderStr => simpa using ih _

/-- The four name lists and the column keys of the metadata `Client.CreateTable` builds. -/
theorem buildTableMetadata_fields (columns : List (String × GoMap GoValue))
    (options : List (String × GoValue)) :
    (buildTableMetadata columns options).PartitionKeyColumnNames =
      flagged "partition_key" columns ∧
    (buildTableMetadata columns options).ClusteringKeyColumnNames =
      flagged "clustering_key" columns ∧
    (buildTableMetadata columns options).SecondaryIndexColumnNames =
      flagged "secondary_index" columns ∧
    (buildTableMetadata columns options).EncryptedColumns = flagged "encrypted" columns ∧
    (∀ n : String, n ∈ Entries.keys (buildTableMetadata columns options).Columns ↔
      ∃ colProps : GoMap GoValue, (n, colProps) ∈ columns ∧
        ∃ s : String, colProps "type" = some (.str s)) := by
  obtain ⟨a1, a2, a3, a4, a5⟩ :=
    addClusteringOrders_fields (processColumns emptyTableMetadata columns) options
  obtain ⟨b2, b3, b4, b5, _⟩ := processColumns_lists columns emptyTableMetadata
  unfold buildTableMetadata
  rw [a1, a2, a3, a4, a5, b2, b3, b4, b5]
  refine ⟨by simp [emptyTableMetadata], by simp [emptyTableMetadata],
    by simp [emptyTableMetadata], by simp [emptyTableMetadata], fun n => ?_⟩
  rw [processColumns_keys]
  simp [emptyTableMetadata, Entries.keys]

theorem mem_flagged (flag : String) (columns : List (String × GoMap GoValue)) (n : String) :
    n ∈ flagged flag columns ↔
      ∃ colProps : GoMap GoValue, (n, colProps) ∈ columns ∧
        colProps flag = some (.bool true) := by
  unfold flagged
  simp only [List.mem_map, List.mem_filter, flagSet_eq_true]
  constructor
  · rintro ⟨⟨c, p⟩, ⟨hm, hf⟩, rfl⟩
    exact ⟨p, hm, hf⟩
  · rintro ⟨p, hm, hf⟩
    exact ⟨(n, p), ⟨hm, hf⟩, rfl⟩

end Metadata

section TranslationClaims

/-- C12, as stated, fails: for the columns map whose only column `id` sets `partition_key`
and declares no `type`, the metadata built has `id` in `PartitionKeyColumnNames` and no
entry for `id` in `Columns`. -/
theorem C12_typeless_column_counterexample :
    "id" ∈ (buildTableMetadata typelessColumns []).PartitionKeyColumnNames ∧
    "id" ∉ Entries.keys (buildTableMetadata typelessColumns []).Columns := by
  decide

/-- C12, amended: for every columns map given to `CreateTable`, every name in
`PartitionKeyColumnNames`, `ClusteringKeyColumnNames`, `SecondaryIndexColumnNames` or
`EncryptedColumns` of the metadata built is the name of a column of the map that sets the
corresponding flag to true, and it is a key of `Columns` whenever that column declares a
string `type`; the keys of `Columns` are exactly the columns that declare a string `type`,
so when every column does, every listed name is a key of `Columns`. -/
theorem C12_key_names_of_typed_columns (columns : List (String × GoMap GoValue))
    (options : List (String × GoValue)) :
    (∀ (flag : String) (names : List String) (n : String),
      (flag, names) ∈
        [("partition_key", (buildTableMetadata columns options).PartitionKeyColumnNames),
         ("clustering_key", (buildTableMetadata columns options).ClusteringKeyColumnNames),
         ("secondary_index",
           (buildTableMetadata columns options).SecondaryIndexColumnNames),
         ("encrypted", (buildTableMetadata columns options).EncryptedColumns)] →
      n ∈ names →
      ∃ colProps : GoMap GoValue, (n, colProps) ∈ columns ∧
        colProps flag = some (.bool true) ∧
        ((∃ s : String, colProps "type" = some (.str s)) →
          n ∈ Entries.keys (buildTableMetadata columns options).Columns)) ∧
    (∀ k : String, k ∈ Entries.keys (buildTableMetadata columns options).Columns ↔
      ∃ colProps : GoMap GoValue, (k, colProps) ∈ columns ∧
        ∃ s : String, colProps "type" = some (.str s)) ∧
    ((∀ col ∈ columns, ∃ s : String, col.2 "type" = some (.str s)) →
      ∀ n : String,
        (n ∈ (buildTableMetadata columns options).PartitionKeyColumnNames ∨
          n ∈ (buildTableMetadata columns options).ClusteringKeyColumnNames ∨
          n ∈ (buildTableMetadata columns options).SecondaryIndexColumnNames ∨
          n ∈ (buildTableMetadata columns options).EncryptedColumns) →
        n ∈ Entries.keys (buildTableMetadata columns options).Columns) := by
  obtain ⟨f1, f2, f3, f4, fk⟩ := buildTableMetadata_fields columns options
  have hcol : ∀ (flag : String) (n : String), n ∈ flagged flag columns →
      ∃ colProps : GoMap GoValue, (n, colProps) ∈ columns ∧
        colProps flag = some (.bool true) ∧
        ((∃ s : String, colProps "type" = some (.str s)) →
          n ∈ Entries.keys (buildTableMetadata columns options).Columns) := by
    intro flag n hmem
    obtain ⟨p, hp, hf⟩ := (mem_flagged flag columns n).mp hmem
    exact ⟨p, hp, hf, fun hs => (fk n).mpr ⟨p, hp, hs⟩⟩
  refine ⟨fun flag names n hflag hn => ?_, fk, fun hall n hn => ?_⟩
  · simp only [List.mem_cons, Prod.mk.injEq, List.mem_singleton, List.not_mem_nil,
      or_false] at hflag
    apply hcol
    rcases hflag with ⟨h1, h2⟩ | ⟨h1, h2⟩ | ⟨h1, h2⟩ | ⟨h1, h2⟩
    · rw [h1, ← f1, ← h2]; exact hn
    · rw [h1, ← f2, ← h2]; exact hn
    · rw [h1, ← f3, ← h2]; exact hn
    · rw [h1, ← f4, ← h2]; exact hn
  · have hany : ∃ flag : String, n ∈ flagged flag columns := by
      rcases hn with h | h | h | h
      · exact ⟨"partition_key", f1 ▸ h⟩
      · exact ⟨"clustering_key", f2 ▸ h⟩
      · exact ⟨"secondary_index", f3 ▸ h⟩
      · exact ⟨"encrypted", f4 ▸ h⟩
    obtain ⟨flag, hmem⟩ := hany
    obtain ⟨p, hp, _, htyped⟩ := hcol flag n hmem
    exact htyped (hall (n, p) hp)

/-- Instance of amended C12.  On the columns map with the `INT` partition-key column `id`
and the `TEXT` column `name`, `id` is a key of `Columns`; on the columns map with the single
`INT` column `id` and no flag, `id` is a key of `Columns` as well; on the columns map whose
only column declares no `type`, `Columns` has no key `id`. -/
theorem C12_key_names_of_typed_columns_witness :
    "id" ∈ Entries.keys (buildTableMetadata
      [("id", propsOf [("type", .str "INT"), ("partition_key", .bool true)]),
       ("name", propsOf [("type", .str "TEXT")])] []).Columns ∧
    "id" ∈ Entries.keys (buildTableMetadata keylessColumns []).Columns ∧
    "id" ∉ Entries.keys (buildTableMetadata typelessColumns []).Columns :=
  ⟨(C12_key_names_of_typed_columns
      [("id", propsOf [("type", .str "INT"), ("partition_key", .bool true)]),
       ("name", propsOf [("type", .str "TEXT")])] []).2.2
      (by
        intro col hcol
        simp only [List.mem_cons, List.mem_singleton, List.not_mem_nil, or_false] at hcol
        rcases hcol with h | h
        · exact ⟨"INT", by rw [h]; rfl⟩
        · exact ⟨"TEXT", by rw [h]; rfl⟩)
      "id" (Or.inl (by decide)),
   ((C12_key_names_of_typed_columns keylessColumns []).2.1 "id").mpr
      ⟨propsOf [("type", .str "INT")], by simp [keylessColumns], "INT", rfl⟩,
   fun h => by
      obtain ⟨p, hp, s, hs⟩ :=
        ((C12_key_names_of_typed_columns typelessColumns []).2.1 "id").mp h
      simp only [typelessColumns, List.mem_singleton, Prod.mk.injEq, true_and] at hp
      rw [hp] at hs
      cases hs⟩

/-- C13, as stated, fails: for the columns map with the single `INT` column `id` and no
partition key, the client's `CreateTable` run against the service holding `ns1` returns no
error and has sent a create-table request, whose metadata has an empty partition key. -/
theorem C13_no_partition_key_counterexample :
    (∀ col ∈ keylessColumns, flagSet col.2 "partition_key" = false) ∧
    (sampleClient.CreateTable sampleTransport sampleRenderMap serverWithNamespace
      "ns1" "t1" keylessColumns []).err = none ∧
    ((sampleClient.CreateTable sampleTransport sampleRenderMap serverWithNamespace
      "ns1" "t1" keylessColumns []).sent.map
        (fun req => req.TableMetadata.map (fun md => md.PartitionKeyColumnNames))) =
      some (some []) := by
  decide

/-- C13, amended: for every columns map in which no column has `partition_key` set to
true, the client's `CreateTable` validates nothing: once the connection is available it
sends the create-table request, whose metadata has an empty `PartitionKeyColumnNames` and
whose `IfNotExists` is true, and it returns an error exactly when the service call does not
return a response. -/
theorem C13_createTable_sends_unvalidated (c : Client) (t : Transport)
    (renderMap : List (String × GoValue) → String)
    (srv : mockServer (Option TableMetadata)) (namespaceName name : String)
    (columns : List (String × GoMap GoValue)) (options : List (String × GoValue))
    (hconn : c.admin = true ∨ t.dialErr = none)
    (hnopk : ∀ col ∈ columns, col.2 "partition_key" ≠ some (.bool true)) :
    (∃ req : CreateTableRequest (Option TableMetadata),
      (c.CreateTable t renderMap srv namespaceName name columns options).sent = some req ∧
      req.NamespaceName = namespaceName ∧ req.TableName = name ∧
      req.IfNotExists = true ∧
      (∃ md : TableMetadata, req.TableMetadata = some md ∧
        md.PartitionKeyColumnNames = []) ∧
      ((c.CreateTable t renderMap srv namespaceName name columns options).err = none ↔
        (srv.CreateTable req).1.isOk = true)) := by
  have hpk : (buildTableMetadata columns options).PartitionKeyColumnNames = [] := by
    rw [(buildTableMetadata_fields columns options).1]
    apply List.eq_nil_iff_forall_not_mem.mpr
    intro n hn
    obtain ⟨p, hp, hf⟩ := (mem_flagged _ _ _).mp hn
    exact hnopk (n, p) hp hf
  refine ⟨({ c with admin := true } : Client).createTableRequest renderMap namespaceName name
    columns options, ?_, rfl, rfl, rfl, ⟨_, rfl, hpk⟩, ?_⟩
  · simp only [Client.CreateTable, Client.ensureConnected_ok c t hconn]
  · simp only [Client.CreateTable, Client.ensureConnected_ok c t hconn]
    cases (srv.CreateTable (({ c with admin := true } : Client).createTableRequest renderMap
      namespaceName name columns options)).1 <;> simp [stubError, Result.isOk]

/-- Instance of amended C13: the keyless columns map sent to the service holding `ns1`. -/
theorem C13_createTable_sends_unvalidated_witness :
    ∃ req : CreateTableRequest (Option TableMetadata),
      (sampleClient.CreateTable sampleTransport sampleRenderMap serverWithNamespace
        "ns1" "t1" keylessColumns []).sent = some req ∧
      req.NamespaceName = "ns1" ∧ req.TableName = "t1" ∧
      req.IfNotExists = true ∧
      (∃ md : TableMetadata, req.TableMetadata = some md ∧
        md.PartitionKeyColumnNames = []) ∧
      ((sampleClient.CreateTable sampleTransport sampleRenderMap serverWithNamespace
        "ns1" "t1" keylessColumns []).err = none ↔
        (serverWithNamespace.CreateTable req).1.isOk = true) :=
  C13_createTable_sends_unvalidated sampleClient sampleTransport sampleRenderMap
    serverWithNamespace "ns1" "t1" keylessColumns [] (Or.inl rfl)
    (by
      intro col hcol
      simp only [keylessColumns, List.mem_singleton] at hcol
      rw [hcol]
      intro h
      cases h)

/-- C16 (the code departs from the claim): a nested map under the key `extra`, which is not
`clustering_order`, has no entry at all in the options `Client.CreateTable` encodes, while
the encoding of `Client.CreateNamespace` holds its `%v` rendering under `extra`. -/
theorem C16_nested_map_dropped_by_createTable
    (renderMap : List (String × GoValue) → String) :
    tableStrOptions renderMap nestedOptions "extra" = none ∧
    (∀ k : String, tableStrOptions renderMap nestedOptions k = none) ∧
    namespaceStrOptions renderMap nestedOptions "extra" =
      some (Sprintv renderMap (.map [("a", .str "b")])) := by
  refine ⟨rfl, fun k => rfl, ?_⟩
  simp [namespaceStrOptions, nestedOptions, namespaceOptionStep, GoMap.set]

/-- C19 (the code departs from the claim): for the configuration with columns `a` and `b`
and the partition key `b`, `a`, the `PartitionKeyColumnNames` of the request sent is `a`,
`b` when the client's loop visits the columns map in the order `a`, `b`, and `b`, `a` when
it visits it in the opposite order: the order sent is that of the map iteration, not that
of the `partition_key` list. -/
theorem C19_partition_key_order_follows_iteration :
    sampleTableConfig.partition_key = ["b", "a"] ∧
    ((resourceScalarDBTableCreate sampleClient sampleTransport sampleRenderMap id
      serverWithNamespace sampleTableConfig).sent.map
        (fun req => req.TableMetadata.map (fun md => md.PartitionKeyColumnNames))) =
      some (some ["a", "b"]) ∧
    ((resourceScalarDBTableCreate sampleClient sampleTransport sampleRenderMap List.reverse
      serverWithNamespace sampleTableConfig).sent.map
        (fun req => req.TableMetadata.map (fun md => md.PartitionKeyColumnNames))) =
      some (some ["b", "a"]) := by
  decide

end TranslationClaims

/-! ## Reading the schema back -/

section SchemaBack

/-- A loop of assignments `m[key e] = val e` over a list: a key that no element writes keeps
its initial value, and a written key holds the value of one of the elements writing it. -/
theorem foldl_set_lookup {A V : Type} (key : A → String) (val : A → V) (l : List A) :
    ∀ (init : GoMap V) (n : String),
      (n ∉ l.map key ∧
        (l.foldl (fun acc e => acc.set (key e) (val e)) init) n = init n) ∨
      (∃ e ∈ l, key e = n ∧
        (l.foldl (fun acc e => acc.set (key e) (val e)) init) n = some (val e)) := by
  induction l with
  | nil => intro init n; exact Or.inl ⟨by simp, rfl⟩
  | cons a rest ih =>
    intro init n
    rw [List.foldl_cons]
    rcases ih (init.set (key a) (val a)) n with ⟨hno, hval⟩ | ⟨e, he, hk, hval⟩
    · by_cases hka : n = key a
      · refine Or.inr ⟨a, by simp, hka.symm, ?_⟩
        rw [hval, hka]
        exact GoMap.set_get_self _ _ _
      · refine Or.inl ⟨?_, ?_⟩
        · simp only [List.map_cons, List.mem_cons, not_or]
          exact ⟨hka, hno⟩
        · rw [hval]
          exact GoMap.set_get_other _ _ _ _ hka
    · exact Or.inr ⟨e, by simp [he], hk, hval⟩

theorem nameListed_eq_true (names : List String) (colName : String) :
    nameListed names colName = true ↔ colName ∈ names := by
  unfold nameListed
  simp only [List.any_eq_true, decide_eq_true_eq]
  constructor
  · rintro ⟨x, hx, rfl⟩; exact hx
  · intro h; exact ⟨colName, h, rfl⟩

/-- The entries of the properties map `GetTableSchema` builds for a column. -/
theorem schemaColProps_entries (typeName : DataType → String) (md : TableMetadata)
    (colName : String) (dataType : DataType) :
    schemaColProps typeName md colName dataType "type" = some (.str (typeName dataType)) ∧
    schemaColProps typeName md colName dataType "partition_key" =
      (if nameListed md.PartitionKeyColumnNames colName then some (.bool true) else none) ∧
    schemaColProps typeName md colName dataType "clustering_key" =
      (if nameListed md.ClusteringKeyColumnNames colName then some (.bool true) else none) ∧
    schemaColProps typeName md colName dataType "secondary_index" =
      (if nameListed md.SecondaryIndexColumnNames colName then some (.bool true)
        else none) ∧
    schemaColProps typeName md colName dataType "encrypted" =
      (if nameListed md.EncryptedColumns colName then some (.bool true) else none) ∧
    (∀ k : String,
      k ∉ ["type", "partition_key", "clustering_key", "secondary_index", "encrypted"] →
      schemaColProps typeName md colName dataType k = none) := by
  unfold schemaColProps
  refine ⟨?_, ?_, ?_, ?_, ?_, ?_⟩
  · cases nameListed md.PartitionKeyColumnNames colName <;>
      cases nameListed md.ClusteringKeyColumnNames colName <;>
      cases nameListed md.SecondaryIndexColumnNames colName <;>
      cases nameListed md.EncryptedColumns colName <;>
      simp [GoMap.set, GoMap.empty]
  · cases nameListed md.PartitionKeyColumnNames colName <;>
      cases nameListed md.ClusteringKeyColumnNames colName <;>
      cases nameListed md.SecondaryIndexColumnNames colName <;>
      cases nameListed md.EncryptedColumns colName <;>
      simp [GoMap.set, GoMap.empty]
  · cases nameListed md.PartitionKeyColumnNames colName <;>
      cases nameListed md.ClusteringKeyColumnNames colName <;>
      cases nameListed md.SecondaryIndexColumnNames colName <;>
      cases nameListed md.EncryptedColumns colName <;>
      simp [GoMap.set, GoMap.empty]
  · cases nameListed md.PartitionKeyColumnNames colName <;>
      cases nameListed md.ClusteringKeyColumnNames colName <;>
      cases nameListed md.SecondaryIndexColumnNames colName <;>
      cases nameListed md.EncryptedColumns colName <;>
      simp [GoMap.set, GoMap.empty]
  · cases nameListed md.PartitionKeyColumnNames colName <;>
      cases nameListed md.ClusteringKeyColumnNames colName <;>
      cases nameListed md.SecondaryIndexColumnNames colName <;>
      cases nameListed md.EncryptedColumns colName <;>
      simp [GoMap.set, GoMap.empty]
  · intro k hk
    simp only [List.mem_cons, List.mem_singleton, List.not_mem_nil, or_false, not_or] at hk
    obtain ⟨h1, h2, h3, h4, h5⟩ := hk
    cases nameListed md.PartitionKeyColumnNames colName <;>
      cases nameListed md.ClusteringKeyColumnNames colName <;>
      cases nameListed md.SecondaryIndexColumnNames colName <;>
      cases nameListed md.EncryptedColumns colName <;>
      simp [GoMap.set, GoMap.empty, h1, h2, h3, h4, h5]

/-- In a map given by entries with pairwise distinct keys, a key has one value. -/
theorem entries_value_unique {V : Type} (m : List (String × V)) (h : (Entries.keys m).Nodup)
    (n : String) (v w : V) (hv : (n, v) ∈ m) (hw : (n, w) ∈ m) : v = w := by
  induction m with
  | nil => simp at hv
  | cons e rest ih =>
    simp only [Entries.keys, List.map_cons, List.nodup_cons] at h
    rcases List.mem_cons.mp hv with hv | hv <;> rcases List.mem_cons.mp hw with hw | hw
    · rw [← hv] at hw
      exact (Prod.mk.inj hw).2.symm
    · exfalso
      apply h.1
      rw [← hv]
      exact List.mem_map.mpr ⟨(n, w), hw, rfl⟩
    · exfalso
      apply h.1
      rw [← hw]
      exact List.mem_map.mpr ⟨(n, v), hv, rfl⟩
    · exact ih h.2 hv hw

end SchemaBack

section RoundTrip

/-- C11: the flag round trip of the schema translation.  For every columns map (entries
with pairwise distinct names, in any order) in which every column declares a string `type`,
and for every order `visited` in which `GetTableSchema` ranges over the `Columns` of the
metadata `CreateTable` builds, the columns map read back has exactly the column names of
the input; for each column it holds a `type` string and, for each of `partition_key`,
`clustering_key`, `secondary_index` and `encrypted`, the flag with the value true exactly
when the input had the boolean true there, and no entry for the flag otherwise; it has no
other keys, so a column with none of the four flags set comes back with `type` only. -/
theorem C11_flag_round_trip (typeName : DataType → String)
    (columns : List (String × GoMap GoValue)) (options : List (String × GoValue))
    (visited : List (String × DataType))
    (hnodup : (Entries.keys columns).Nodup)
    (htype : ∀ col ∈ columns, ∃ s : String, col.2 "type" = some (.str s))
    (hvisit : visited.Perm (buildTableMetadata columns options).Columns) :
    (∀ n : String,
      (schemaColumns typeName
        { buildTableMetadata columns options with Columns := visited } n).isSome = true ↔
      n ∈ Entries.keys columns) ∧
    (∀ (n : String) (colProps : GoMap GoValue), (n, colProps) ∈ columns →
      ∃ out : GoMap GoValue,
        schemaColumns typeName
          { buildTableMetadata columns options with Columns := visited } n = some out ∧
        (∃ s : String, out "type" = some (.str s)) ∧
        (∀ flag ∈ ["partition_key", "clustering_key", "secondary_index", "encrypted"],
          (out flag = some (.bool true) ↔ colProps flag = some (.bool true)) ∧
          (out flag = none ↔ colProps flag ≠ some (.bool true))) ∧
        (∀ k : String,
          k ∉ ["type", "partition_key", "clustering_key", "secondary_index", "encrypted"] →
          out k = none) ∧
        ((∀ flag ∈ ["partition_key", "clustering_key", "secondary_index", "encrypted"],
            colProps flag ≠ some (.bool true)) →
          ∀ k : String, k ≠ "type" → out k = none)) := by
  obtain ⟨f1, f2, f3, f4, fk⟩ := buildTableMetadata_fields columns options
  have hkeys : ∀ n : String, n ∈ visited.map Prod.fst ↔ n ∈ Entries.keys columns := by
    intro n
    have h1 : n ∈ visited.map Prod.fst ↔
        n ∈ Entries.keys (buildTableMetadata columns options).Columns :=
      (hvisit.map Prod.fst).mem_iff
    rw [h1, fk]
    constructor
    · rintro ⟨p, hp, _⟩
      exact List.mem_map.mpr ⟨(n, p), hp, rfl⟩
    · intro h
      obtain ⟨⟨c, p⟩, hp, hc⟩ := List.mem_map.mp h
      simp only at hc
      subst hc
      exact ⟨p, hp, htype (c, p) hp⟩
  have hlook := foldl_set_lookup (fun col : String × DataType => col.1)
    (fun col => schemaColProps typeName
      { buildTableMetadata columns options with Columns := visited } col.1 col.2)
    visited GoMap.empty
  have hlisted : ∀ (flag : String) (n : String) (colProps : GoMap GoValue),
      (n, colProps) ∈ columns →
      (nameListed (flagged flag columns) n = true ↔ colProps flag = some (.bool true)) := by
    intro flag n colProps hmem
    rw [nameListed_eq_true, mem_flagged]
    constructor
    · rintro ⟨p, hp, hf⟩
      rw [entries_value_unique columns hnodup n colProps p hmem hp]
      exact hf
    · intro hf
      exact ⟨colProps, hmem, hf⟩
  refine ⟨fun n => ?_, fun n colProps hmem => ?_⟩
  · rcases hlook n with ⟨hno, hval⟩ | ⟨e, he, hk, hval⟩
    · have hval1 : schemaColumns typeName
          { buildTableMetadata columns options with Columns := visited } n = none := hval
      rw [hval1]
      simp only [Option.isSome_none, Bool.false_eq_true, false_iff]
      exact fun h => hno ((hkeys n).mpr h)
    · have hval1 : schemaColumns typeName
          { buildTableMetadata columns options with Columns := visited } n = some _ := hval
      rw [hval1]
      simp only [Option.isSome_some, true_iff]
      exact (hkeys n).mp (List.mem_map.mpr ⟨e, he, hk⟩)
  · have hin : n ∈ visited.map Prod.fst :=
      (hkeys n).mpr (List.mem_map.mpr ⟨(n, colProps), hmem, rfl⟩)
    rcases hlook n with ⟨hno, _⟩ | ⟨e, he, hk, hval⟩
    · exact absurd hin hno
    · obtain ⟨e1, e2, e3, e4, e5, e6⟩ := schemaColProps_entries typeName
        { buildTableMetadata columns options with Columns := visited } e.1 e.2
      have e2a : schemaColProps typeName
          { buildTableMetadata columns options with Columns := visited } e.1 e.2
            "partition_key" =
          (if nameListed (flagged "partition_key" columns) n = true
            then some (GoValue.bool true) else none) := by
        rw [e2]
        show (if nameListed (buildTableMetadata columns options).PartitionKeyColumnNames e.1
          = true then _ else _) = _
        rw [f1, hk]
      have e3a : schemaColProps typeName
          { buildTableMetadata columns options with Columns := visited } e.1 e.2
            "clustering_key" =
          (if nameListed (flagged "clustering_key" columns) n = true
            then some (GoValue.bool true) else none) := by
        rw [e3]
        show (if nameListed (buildTableMetadata columns options).ClusteringKeyColumnNames e.1
          = true then _ else _) = _
        rw [f2, hk]
      have e4a : schemaColProps typeName
          { buildTableMetadata columns options with Columns := visited } e.1 e.2
            "secondary_index" =
          (if nameListed (flagged "secondary_index" columns) n = true
            then some (GoValue.bool true) else none) := by
        rw [e4]
        show (if nameListed (buildTableMetadata columns options).SecondaryIndexColumnNames e.1
          = true then _ else _) = _
        rw [f3, hk]
      have e5a : schemaColProps typeName
          { buildTableMetadata columns options with Columns := visited } e.1 e.2
            "encrypted" =
          (if nameListed (flagged "encrypted" columns) n = true
            then some (GoValue.bool true) else none) := by
        rw [e5]
        show (if nameListed (buildTableMetadata columns options).EncryptedColumns e.1
          = true then _ else _) = _
        rw [f4, hk]
      have key : ∀ (flag : String) (v : Option GoValue),
          v = (if nameListed (flagged flag columns) n = true then some (GoValue.bool true)
            else none) →
          ((v = some (.bool true) ↔ colProps flag = some (.bool true)) ∧
            (v = none ↔ colProps flag ≠ some (.bool true))) := by
        intro flag v hv
        have hl := hlisted flag n colProps hmem
        by_cases hc : nameListed (flagged flag columns) n = true
        · rw [hv, if_pos hc]
          have := hl.mp hc
          simp [this]
        · rw [hv, if_neg hc]
          have : colProps flag ≠ some (.bool true) := fun h => hc (hl.mpr h)
          simp [this]
      have hflags : ∀ flag ∈ ["partition_key", "clustering_key", "secondary_index",
          "encrypted"],
          (schemaColProps typeName
            { buildTableMetadata columns options with Columns := visited } e.1 e.2 flag
              = some (.bool true) ↔ colProps flag = some (.bool true)) ∧
          (schemaColProps typeName
            { buildTableMetadata columns options with Columns := visited } e.1 e.2 flag
              = none ↔ colProps flag ≠ some (.bool true)) := by
        intro flag hflag
        simp only [List.mem_cons, List.mem_singleton, List.not_mem_nil, or_false] at hflag
        rcases hflag with h | h | h | h
        · rw [h]; exact key _ _ e2a
        · rw [h]; exact key _ _ e3a
        · rw [h]; exact key _ _ e4a
        · rw [h]; exact key _ _ e5a
      refine ⟨_, hval, ⟨_, e1⟩, hflags, e6, fun hnone k hk1 => ?_⟩
      by_cases hk4 : k ∈ ["partition_key", "clustering_key", "secondary_index", "encrypted"]
      · exact ((hflags k hk4).2).mpr (hnone k hk4)
      · apply e6
        simp only [List.mem_cons, List.mem_singleton, List.not_mem_nil, or_false,
          not_or] at hk4 ⊢
        exact ⟨hk1, hk4⟩

/-- Instance of C11, the round trip of the spec: column `id` of type `INT` with
`partition_key`, column `name` of type `TEXT` with `secondary_index`; read back, `id` has
`partition_key` and no `secondary_index`. -/
theorem C11_flag_round_trip_witness :
    ∃ out : GoMap GoValue,
      schemaColumns (fun _ => "T")
        { buildTableMetadata
            [("id", propsOf [("type", .str "INT"), ("partition_key", .bool true)]),
             ("name", propsOf [("type", .str "TEXT"), ("secondary_index", .bool true)])] []
          with Columns := [("name", .DATA_TYPE_TEXT), ("id", .DATA_TYPE_INT)] } "id"
        = some out ∧
      out "partition_key" = some (.bool true) ∧ out "secondary_index" = none := by
  have h := (C11_flag_round_trip (fun _ => "T")
    [("id", propsOf [("type", .str "INT"), ("partition_key", .bool true)]),
     ("name", propsOf [("type", .str "TEXT"), ("secondary_index", .bool true)])] []
    [("name", .DATA_TYPE_TEXT), ("id", .DATA_TYPE_INT)]
    (by decide)
    (by
      intro col hcol
      simp only [List.mem_cons, List.mem_singleton, List.not_mem_nil, or_false] at hcol
      rcases hcol with h | h
      · exact ⟨"INT", by rw [h]; rfl⟩
      · exact ⟨"TEXT", by rw [h]; rfl⟩)
    (by
      have hc : (buildTableMetadata
          [("id", propsOf [("type", .str "INT"), ("partition_key", .bool true)]),
           ("name", propsOf [("type", .str "TEXT"), ("secondary_index", .bool true)])]
          []).Columns = [("id", .DATA_TYPE_INT), ("name", .DATA_TYPE_TEXT)] := by decide
      rw [hc]
      exact List.Perm.swap _ _ _)).2 "id"
    (propsOf [("type", .str "INT"), ("partition_key", .bool true)]) (by simp)
  obtain ⟨out, h1, _, h3, _⟩ := h
  exact ⟨out, h1, (h3 "partition_key" (by simp)).1.mpr rfl,
    (h3 "secondary_index" (by simp)).2.mpr (by intro hc; cases hc)⟩

end RoundTrip

/-! ## The options encoding of `CreateTable` -/

section OptionsEncoding

theorem dotted_key_inj (a b : String)
    (h : "clustering_order." ++ a = "clustering_order." ++ b) : a = b := by
  have hd := congrArg String.data h
  simp only [String.data_append, List.append_cancel_left_eq] at hd
  exact String.ext hd

theorem dotted_key_ne_base (c : String) : "clustering_order." ++ c ≠ "clustering_order" := by
  intro h
  have hl := congrArg String.length h
  rw [String.length_append] at hl
  have h1 : ("clustering_order." : String).length = 17 := by decide
  have h2 : ("clustering_order" : String).length = 16 := by decide
  omega

/-- The flattening loop leaves every key alone that is not one of its dotted keys. -/
theorem flattenClusteringOrder_other (renderMap : List (String × GoValue) → String)
    (acc : GoMap String) (val : List (String × GoValue)) (j : String)
    (h : ∀ c ∈ Entries.keys val, j ≠ "clustering_order." ++ c) :
    flattenClusteringOrder renderMap acc val j = acc j := by
  rcases foldl_set_lookup (fun e : String × GoValue => "clustering_order." ++ e.1)
    (fun e => Sprintv renderMap e.2) val acc j with ⟨_, hval⟩ | ⟨e, he, hk, _⟩
  · exact hval
  · exact absurd hk.symm (h e.1 (List.mem_map.mpr ⟨e, he, rfl⟩))

/-- The flattening loop stores the rendering of each entry of a map with distinct keys
under its dotted key. -/
theorem flattenClusteringOrder_entry (renderMap : List (String × GoValue) → String)
    (acc : GoMap String) (val : List (String × GoValue)) (hn : (Entries.keys val).Nodup)
    (col : String) (order : GoValue) (h : (col, order) ∈ val) :
    flattenClusteringOrder renderMap acc val ("clustering_order." ++ col) =
      some (Sprintv renderMap order) := by
  rcases foldl_set_lookup (fun e : String × GoValue => "clustering_order." ++ e.1)
    (fun e => Sprintv renderMap e.2) val acc ("clustering_order." ++ col)
    with ⟨hno, _⟩ | ⟨e, he, hk, hval⟩
  · exact absurd (List.mem_map.mpr ⟨(col, order), h, rfl⟩) hno
  · have hc : e.1 = col := dotted_key_inj _ _ hk
    have he1 : (col, e.2) ∈ val := by rw [← hc]; exact he
    have ho : e.2 = order := entries_value_unique val hn col e.2 order he1 h
    rw [← ho]
    exact hval

/-- One iteration of the options loop leaves every key alone that it does not assign. -/
theorem tableOptionStep_other (renderMap : List (String × GoValue) → String)
    (acc : GoMap String) (k : String) (v : GoValue) (j : String)
    (h : ¬ tableOptionWrites k v j) :
    tableOptionStep renderMap acc k v j = acc j := by
  cases v with
  | map val =>
    unfold tableOptionStep
    by_cases hk : k = "clustering_order"
    · simp only [hk, ↓reduceIte]
      apply flattenClusteringOrder_other
      intro c hc hj
      exact h ⟨hk, c, hc, hj⟩
    · simp [hk]
  | str s => exact GoMap.set_get_other _ _ _ _ h
  | int n => exact GoMap.set_get_other _ _ _ _ h
  | bool b => exact GoMap.set_get_other _ _ _ _ h
  | other r => exact GoMap.set_get_other _ _ _ _ h

/-- The options loop leaves every key alone that none of its iterations assigns. -/
theorem tableOptions_foldl_other (renderMap : List (String × GoValue) → String)
    (l : List (String × GoValue)) (j : String) :
    ∀ acc : GoMap String, (∀ e ∈ l, ¬ tableOptionWrites e.1 e.2 j) →
      (l.foldl (fun strOptions kv => tableOptionStep renderMap strOptions kv.1 kv.2) acc) j
        = acc j := by
  induction l with
  | nil => intro acc _; rfl
  | cons e rest ih =>
    intro acc h
    rw [List.foldl_cons, ih _ (fun e1 he1 => h e1 (by simp [he1]))]
    exact tableOptionStep_other renderMap acc e.1 e.2 j (h e (by simp))

/-- The value under a key is the one written by the last iteration that assigns it. -/
theorem tableStrOptions_last_writer (renderMap : List (String × GoValue) → String)
    (l1 l2 : List (String × GoValue)) (e : String × GoValue) (j : String)
    (h : ∀ e1 ∈ l2, ¬ tableOptionWrites e1.1 e1.2 j) :
    tableStrOptions renderMap (l1 ++ e :: l2) j =
      tableOptionStep renderMap (tableStrOptions renderMap l1) e.1 e.2 j := by
  unfold tableStrOptions
  rw [List.foldl_append, List.foldl_cons, tableOptions_foldl_other renderMap l2 j _ h]

/-- In a map with distinct keys, no entry after a given entry has its key. -/
theorem key_not_in_tail {V : Type} (l1 l2 : List (String × V)) (e : String × V)
    (h : (Entries.keys (l1 ++ e :: l2)).Nodup) : ∀ e1 ∈ l2, e1.1 ≠ e.1 := by
  intro e1 he1 heq
  simp only [Entries.keys, List.map_append, List.map_cons] at h
  have h2 := (List.nodup_append.mp h).2.1
  have h3 := (List.nodup_cons.mp h2).1
  exact h3 (heq ▸ List.mem_map.mpr ⟨e1, he1, rfl⟩)

/-- A key whose entry is not a map is assigned its own step's value. -/
theorem tableStrOptions_scalar_key (renderMap : List (String × GoValue) → String)
    (options : List (String × GoValue)) (hnodup : (Entries.keys options).Nodup)
    (hform : ∀ e ∈ options, ∀ c : String, e.1 ≠ "clustering_order." ++ c)
    (k : String) (v : GoValue) (hv : ∀ m, v ≠ .map m) (hmem : (k, v) ∈ options) :
    tableStrOptions renderMap options k =
      tableOptionStep renderMap GoMap.empty k v k := by
  obtain ⟨l1, l2, hl⟩ := List.append_of_mem hmem
  subst hl
  have htail := key_not_in_tail l1 l2 (k, v) hnodup
  rw [tableStrOptions_last_writer renderMap l1 l2 (k, v) k]
  · cases v with
    | map m => exact absurd rfl (hv m)
    | str s => simp [tableOptionStep, GoMap.set]
    | int n => simp [tableOptionStep, GoMap.set]
    | bool b => simp [tableOptionStep, GoMap.set]
    | other r => simp [tableOptionStep, GoMap.set]
  · intro e1 he1 hw
    obtain ⟨k1, v1⟩ := e1
    cases v1 with
    | map m =>
      obtain ⟨_, c, _, hc⟩ := hw
      exact hform (k, v) hmem c hc
    | str s => exact htail _ he1 (Eq.symm hw)
    | int n => exact htail _ he1 (Eq.symm hw)
    | bool b => exact htail _ he1 (Eq.symm hw)
    | other r => exact htail _ he1 (Eq.symm hw)

end OptionsEncoding

section OptionsClaims

/-- C15: the options encoding of `CreateTable`.  For every options map (entries with
pairwise distinct keys, in any order) none of whose top-level keys has the form
`clustering_order.<column>`, the encoded map holds: under each key with a string value,
that string; under each key with an integer value, its decimal rendering; under each key
with a boolean value, `true` or `false`; for each entry (column, order) of the map under
`clustering_order`, the `%v` rendering of the order under `clustering_order.<column>`, and
then no key `clustering_order`; and every key of the encoded map is either a top-level key
whose value is not a map or such a dotted key, so for inputs made of scalars and the
clustering-order map there are no other keys. -/
theorem C15_table_options_encoding (renderMap : List (String × GoValue) → String)
    (options : List (String × GoValue))
    (hnodup : (Entries.keys options).Nodup)
    (hform : ∀ e ∈ options, ∀ c : String, e.1 ≠ "clustering_order." ++ c) :
    (∀ (k s : String), (k, GoValue.str s) ∈ options →
      tableStrOptions renderMap options k = some s) ∧
    (∀ (k : String) (n : Int), (k, GoValue.int n) ∈ options →
      tableStrOptions renderMap options k = some (Itoa n)) ∧
    (∀ (k : String) (b : Bool), (k, GoValue.bool b) ∈ options →
      tableStrOptions renderMap options k = some (if b then "true" else "false")) ∧
    (∀ m : List (String × GoValue), ("clustering_order", GoValue.map m) ∈ options →
      tableStrOptions renderMap options "clustering_order" = none ∧
      ((Entries.keys m).Nodup → ∀ (col : String) (order : GoValue), (col, order) ∈ m →
        tableStrOptions renderMap options ("clustering_order." ++ col) =
          some (Sprintv renderMap order))) ∧
    (∀ (j x : String), tableStrOptions renderMap options j = some x →
      (∃ v : GoValue, (j, v) ∈ options ∧ ∀ m, v ≠ .map m) ∨
      (∃ (m : List (String × GoValue)) (col : String),
        ("clustering_order", GoValue.map m) ∈ options ∧ col ∈ Entries.keys m ∧
        j = "clustering_order." ++ col)) := by
  refine ⟨?_, ?_, ?_, ?_, ?_⟩
  · intro k s hmem
    rw [tableStrOptions_scalar_key renderMap options hnodup hform k _
      (fun m h => by cases h) hmem]
    simp [tableOptionStep, GoMap.set]
  · intro k n hmem
    rw [tableStrOptions_scalar_key renderMap options hnodup hform k _
      (fun m h => by cases h) hmem]
    simp [tableOptionStep, GoMap.set]
  · intro k b hmem
    rw [tableStrOptions_scalar_key renderMap options hnodup hform k _
      (fun m h => by cases h) hmem]
    simp [tableOptionStep, GoMap.set, FormatBool]
  · intro m hmem
    constructor
    · unfold tableStrOptions
      rw [tableOptions_foldl_other renderMap options "clustering_order" GoMap.empty]
      · rfl
      · intro e1 he1 hw
        obtain ⟨k1, v1⟩ := e1
        have hkey : ∀ v : GoValue, ("clustering_order", v) ∈ options → v = .map m :=
          fun v hv => entries_value_unique options hnodup _ _ _ hv hmem
        cases v1 with
        | map m1 =>
          obtain ⟨_, c, _, hc⟩ := hw
          exact dotted_key_ne_base c hc.symm
        | str s =>
          have hk : "clustering_order" = k1 := hw
          subst hk
          exact absurd (hkey _ he1) (by intro h; cases h)
        | int n =>
          have hk : "clustering_order" = k1 := hw
          subst hk
          exact absurd (hkey _ he1) (by intro h; cases h)
        | bool b =>
          have hk : "clustering_order" = k1 := hw
          subst hk
          exact absurd (hkey _ he1) (by intro h; cases h)
        | other r =>
          have hk : "clustering_order" = k1 := hw
          subst hk
          exact absurd (hkey _ he1) (by intro h; cases h)
    · intro hm col order hcol
      obtain ⟨l1, l2, hl⟩ := List.append_of_mem hmem
      subst hl
      have htail := key_not_in_tail l1 l2 ("clustering_order", GoValue.map m) hnodup
      rw [tableStrOptions_last_writer renderMap l1 l2 ("clustering_order", GoValue.map m)]
      · simp only [tableOptionStep, ↓reduceIte]
        exact flattenClusteringOrder_entry renderMap _ m hm col order hcol
      · intro e1 he1 hw
        obtain ⟨k1, v1⟩ := e1
        have hin : (k1, v1) ∈ l1 ++ ("clustering_order", GoValue.map m) :: l2 := by
          simp [he1]
        cases v1 with
        | map m1 => exact htail _ he1 hw.1
        | str s => exact hform _ hin col (Eq.symm hw)
        | int n => exact hform _ hin col (Eq.symm hw)
        | bool b => exact hform _ hin col (Eq.symm hw)
        | other r => exact hform _ hin col (Eq.symm hw)
  · intro j x hx
    by_contra hnot
    have hnone : tableStrOptions renderMap options j = none := by
      unfold tableStrOptions
      rw [tableOptions_foldl_other renderMap options j GoMap.empty]
      · rfl
      · intro e1 he1 hw
        obtain ⟨k1, v1⟩ := e1
        apply hnot
        cases v1 with
        | map m1 =>
          obtain ⟨hk, c, hc, hj⟩ := hw
          simp only at hk
          subst hk
          exact Or.inr ⟨m1, c, he1, hc, hj⟩
        | str s =>
          have hk : j = k1 := hw
          subst hk
          exact Or.inl ⟨_, he1, fun m h => by cases h⟩
        | int n =>
          have hk : j = k1 := hw
          subst hk
          exact Or.inl ⟨_, he1, fun m h => by cases h⟩
        | bool b =>
          have hk : j = k1 := hw
          subst hk
          exact Or.inl ⟨_, he1, fun m h => by cases h⟩
        | other r =>
          have hk : j = k1 := hw
          subst hk
          exact Or.inl ⟨_, he1, fun m h => by cases h⟩
    rw [hnone] at hx
    cases hx

/-- Instance of C15 on an options map with a string, an integer, a boolean and a
clustering order: the integer is rendered in decimal and the order of `c1` is stored under
the dotted key. -/
theorem C15_table_options_encoding_witness :
    tableStrOptions sampleRenderMap sampleOptions "ttl" = some "30" ∧
    tableStrOptions sampleRenderMap sampleOptions "clustering_order.c1" = some "DESC" ∧
    tableStrOptions sampleRenderMap sampleOptions "clustering_order" = none := by
  have h := C15_table_options_encoding sampleRenderMap sampleOptions (by decide)
    (by
      intro e he c
      simp only [sampleOptions, List.mem_cons, List.mem_singleton, List.not_mem_nil,
        or_false] at he
      intro hc
      have hd := congrArg String.data hc
      rcases he with h | h | h | h <;>
      · rw [h] at hd
        simp [String.data_append] at hd)
  obtain ⟨_, h2, _, h4, _⟩ := h
  have hm := h4 [("c1", .str "DESC"), ("c2", .str "ASC")] (by simp [sampleOptions])
  exact ⟨h2 "ttl" 30 (by simp [sampleOptions]),
    hm.2 (by decide) "c1" (.str "DESC") (by simp), hm.1⟩

end OptionsClaims
